import Mathlib

/-!
# ProjectRenderer (Firmware/ProjectRenderer.h)

A shallow embedding of the scene renderer: the colour codec `hexTo565`, the two element
dispatchers `renderElement` / `drawBinaryElement`, the document walker
`renderProject` / `renderScreen` and the binary decoder `renderBinary`.

Conventions of the embedding.

* The output surface is a log: every call on `_tft` or `TJpg_Decoder` appends one `DrawOp`.
* A `const char*` is the list of bytes stored in the buffer it points to, before the terminator
  that closes the buffer; `none` is the null pointer. The code's own string functions
  (`strlen`, `strcmp`, `strtol`, `String(...)`) stop at the first zero byte, as in C.
  A pointer handed to the surface is logged as the buffer itself.
* `int` and `long` are 32 bits wide (the targets of this firmware); sums of `int`s wrap.
* A read that leaves part of a variable unwritten (short stream), and a `strcmp` on a null
  pointer, have no defined result: the functions return `none` there.
-/

namespace ProjectRenderer

/-! ## Bytes and C strings -/

abbrev Byte := Fin 256

abbrev CStr := List Byte

/-- The bytes of an ASCII literal. -/
def asc (s : String) : CStr := s.toList.map (fun c => Fin.ofNat c.toNat)

/-- The string held in a buffer: the bytes before the first zero byte. -/
def cstr (s : CStr) : CStr := s.takeWhile (fun b => b.val != 0)

def strlen (s : CStr) : Nat := (cstr s).length

/-- Byte at `s[0]`; the terminator when the buffer holds the empty string. -/
def firstChar (s : CStr) : Nat :=
  match s with
  | [] => 0
  | b :: _ => b.val

/-- C `strcmp` on two buffers: the difference of the first pair of bytes that differ,
0 when both strings end together. -/
def strcmp : CStr → CStr → Int
  | [], [] => 0
  | [], b :: _ => 0 - (b.val : Int)
  | a :: _, [] => (a.val : Int)
  | a :: as, b :: bs =>
    if a.val ≠ b.val then (a.val : Int) - (b.val : Int)
    else if a.val = 0 then 0
    else strcmp as bs

/-! ## Machine integers -/

/-- Value of a 32-bit two's-complement `int` after wrap-around. -/
def wrapInt (z : Int) : Int := (z + 2147483648) % 4294967296 - 2147483648

/-- Value of the two bytes of a `uint16_t` reinterpreted as `int16_t`. -/
def toInt16 (v : Nat) : Int := if v < 32768 then (v : Int) else (v : Int) - 65536

def LONG_MAX : Nat := 2147483647

/-! ## strtol -/

def isspace (c : Nat) : Bool := c == 32 || (9 ≤ c && c ≤ 13)

/-- Digit value of a character in `strtol`: decimal digits, then letters from 10 upward. -/
def digitVal (c : Nat) : Option Nat :=
  if 48 ≤ c ∧ c ≤ 57 then some (c - 48)
  else if 65 ≤ c ∧ c ≤ 90 then some (c - 65 + 10)
  else if 97 ≤ c ∧ c ≤ 122 then some (c - 97 + 10)
  else none

/-- The digit loop of `strtol`: consumes digits below `base`, stops at the first other byte. -/
def strtolDigits (base : Nat) : CStr → Nat → Nat
  | [], acc => acc
  | c :: cs, acc =>
    match digitVal c.val with
    | some d => if d < base then strtolDigits base cs (acc * base + d) else acc
    | none => acc

def skipSpaces : CStr → CStr
  | [] => []
  | c :: cs => if isspace c.val then skipSpaces cs else c :: cs

/-- Drops a `0x` / `0X` prefix (base 16 only). -/
def skipHexPrefix : CStr → CStr
  | c0 :: c1 :: cs => if c0.val = 48 ∧ (c1.val = 120 ∨ c1.val = 88) then cs else c0 :: c1 :: cs
  | cs => cs

/-- C `strtol(s, NULL, 16)` with a 32-bit `long`: optional white space, optional sign, optional
`0x`, hex digits; the magnitude saturates at `LONG_MAX` (`LONG_MIN` when negative). -/
def strtol16 (s : CStr) : Int :=
  let s1 := skipSpaces s
  let (neg, s2) : Bool × CStr :=
    match s1 with
    | c :: cs => if c.val = 45 then (true, cs) else if c.val = 43 then (false, cs) else (false, c :: cs)
    | [] => (false, [])
  let mag := strtolDigits 16 (skipHexPrefix s2) 0
  if neg then (if mag > LONG_MAX + 1 then -((LONG_MAX : Int) + 1) else -(mag : Int))
  else (if mag > LONG_MAX then (LONG_MAX : Int) else (mag : Int))

/-! ## hexTo565 -/

/-- `(v >> k) & m` on a two's-complement `long`, for a non-negative mask `m`. -/
def shrAnd (v : Int) (k : Nat) (m : Nat) : Nat := (Int.land (v >>> k) (m : Int)).toNat

def hexTo565 (hex : Option CStr) : Nat :=
  match hex with
  | none => 0x0000
  | some hex =>
    if firstChar hex ≠ 35 then 0x0000
    else
      let rgb0 : Int := strtol16 (hex.drop 1)
      let rgb : Int :=
        if strlen hex = 4 then
          let r := shrAnd rgb0 8 0xF
          let g := shrAnd rgb0 4 0xF
          let b := shrAnd rgb0 0 0xF
          let r := (r <<< 4) ||| r
          let g := (g <<< 4) ||| g
          let b := (b <<< 4) ||| b
          (((r <<< 16) ||| (g <<< 8) ||| b : Nat) : Int)
        else rgb0
      let r := shrAnd rgb 16 0xFF
      let g := shrAnd rgb 8 0xFF
      let b := shrAnd rgb 0 0xFF
      ((((r &&& 0xF8) <<< 8) ||| ((g &&& 0xFC) <<< 3)) ||| (b >>> 3)) % 65536

/-- The value of a hexadecimal digit character, `0`-`9`, `a`-`f` or `A`-`F`, as the colour
format defines it (independent of `strtol`). -/
def hexDigitValue (c : Byte) : Option Nat :=
  let i := (asc "0123456789abcdef").indexOf c
  let j := (asc "0123456789ABCDEF").indexOf c
  if i < 16 then some i else if j < 16 then some j else none

/-! ## The output surface -/

inductive DrawOp where
  | fillScreen (color : Nat)
  | fillRect (x y w h : Int) (color : Nat)
  | drawRect (x y w h : Int) (color : Nat)
  | fillRoundRect (x y w h r : Int) (color : Nat)
  | fillCircle (x y r : Int) (color : Nat)
  | drawCircle (x y r : Int) (color : Nat)
  | fillTriangle (x0 y0 x1 y1 x2 y2 : Int) (color : Nat)
  | setTextColor (color : Nat)
  | setTextSize (s : Int)
  | drawString (s : Option CStr) (x y : Int)
  | drawCentreString (s : Option CStr) (x y : Int) (font : Int)
  | drawJpgFile (path : CStr) (x y : Int)
  deriving DecidableEq, Repr

/-! ## The document form -/

/-- What the accessors of a `JsonObject` element return: `el["type"]`, `el["name"]`,
`el["color"]` as `const char*` (`none`: null), `el["x"]` .. `el["h"]` as `int`, and for
`asset` whether the key is there (`none`: `containsKey` is false) and its `const char*`. -/
structure Element where
  type : Option CStr
  name : Option CStr
  x : Int
  y : Int
  w : Int
  h : Int
  color : Option CStr
  asset : Option (Option CStr)
  deriving DecidableEq, Repr

structure Screen where
  id : Option CStr
  backgroundColor : Option (Option CStr)
  elements : List Element
  backgroundAsset : Option (Option CStr)
  deriving DecidableEq, Repr

structure Project where
  activeScreenId : Option CStr
  screens : List Screen
  deriving DecidableEq, Repr

/-- The path `"/" + String(assetName) + ".jpg"`. -/
def jpgPath (assetName : CStr) : CStr := asc "/" ++ cstr assetName ++ asc ".jpg"

/-- The asset branch shared by `renderScreen` and `renderElement`: one blit at `(x, y)` when the
name is a non-empty string and `LittleFS.exists(path)`. -/
def drawAsset (fs : CStr → Bool) (assetName : Option CStr) (x y : Int) : List DrawOp :=
  match assetName with
  | none => []
  | some a =>
    if strlen a > 0 then
      let path := jpgPath a
      if fs path then [DrawOp.drawJpgFile path x y] else []
    else []

def renderElement (fs : CStr → Bool) (el : Element) : Option (List DrawOp) :=
  let name := el.name
  let x := el.x
  let y := el.y
  let w := el.w
  let h := el.h
  let color := hexTo565 el.color
  match el.type with
  | none => none
  | some type =>
    if strcmp type (asc "fillRect") = 0 then
      some [DrawOp.fillRect x y w h color]
    else if strcmp type (asc "drawRect") = 0 then
      some [DrawOp.drawRect x y w h color]
    else if strcmp type (asc "fillRoundRect") = 0 then
      some [DrawOp.fillRoundRect x y w h 8 color]
    else if strcmp type (asc "fillCircle") = 0 then
      let r := Int.tdiv (min w h) 2
      some [DrawOp.fillCircle (wrapInt (x + Int.tdiv w 2)) (wrapInt (y + Int.tdiv h 2)) r color]
    else if strcmp type (asc "drawCircle") = 0 then
      let r := Int.tdiv (min w h) 2
      some [DrawOp.drawCircle (wrapInt (x + Int.tdiv w 2)) (wrapInt (y + Int.tdiv h 2)) r color]
    else if strcmp type (asc "fillTriangle") = 0 then
      some [DrawOp.fillTriangle (wrapInt (x + Int.tdiv w 2)) y x (wrapInt (y + h))
        (wrapInt (x + w)) (wrapInt (y + h)) color]
    else if strcmp type (asc "drawString") = 0 then
      some [DrawOp.setTextColor color, DrawOp.setTextSize (max 1 (Int.tdiv h 8)),
        DrawOp.drawString name x y]
    else if strcmp type (asc "drawCentreString") = 0 then
      some [DrawOp.setTextColor color, DrawOp.setTextSize (max 1 (Int.tdiv h 8)),
        DrawOp.drawCentreString name (wrapInt (x + Int.tdiv w 2)) y 2]
    else
      match el.asset with
      | some assetName => some (drawAsset fs assetName x y)
      | none => some []

/-- The loop `for (JsonObject el : elements) renderElement(el);` appending to the log. -/
def renderElements (fs : CStr → Bool) : List Element → List DrawOp → Option (List DrawOp)
  | [], log => some log
  | el :: els, log =>
    match renderElement fs el with
    | none => none
    | some ops => renderElements fs els (log ++ ops)

def renderScreen (fs : CStr → Bool) (screen : Screen) : Option (List DrawOp) :=
  let log : List DrawOp :=
    match screen.backgroundColor with
    | some colorHex => [DrawOp.fillScreen (hexTo565 colorHex)]
    | none => []
  match renderElements fs screen.elements log with
  | none => none
  | some log =>
    match screen.backgroundAsset with
    | some assetName => some (log ++ drawAsset fs assetName 0 0)
    | none => some log

/-- The loop of `renderProject` over `screens`, left at the first match by `break`. -/
def renderProjectLoop (fs : CStr → Bool) (activeScreenId : CStr) :
    List Screen → Option (List DrawOp)
  | [] => some []
  | screen :: rest =>
    match screen.id with
    | none => none
    | some id =>
      if strcmp id activeScreenId = 0 then renderScreen fs screen
      else renderProjectLoop fs activeScreenId rest

def renderProject (fs : CStr → Bool) (doc : Project) : Option (List DrawOp) :=
  match doc.activeScreenId with
  | none => some []
  | some activeScreenId => renderProjectLoop fs activeScreenId doc.screens

/-! ## The binary form -/

/-- `(uint8_t) file.read()`: the next byte, or 255 (from -1) at the end of the file. -/
def readByte (file : List Byte) : Nat × List Byte :=
  match file with
  | [] => (255, [])
  | b :: rest => (b.val, rest)

/-- `file.read((uint8_t*)&v, 2)` into a `uint16_t` on the little-endian target. -/
def read16 (file : List Byte) : Option (Nat × List Byte) :=
  match file with
  | lo :: hi :: rest => some (lo.val + 256 * hi.val, rest)
  | _ => none

/-- `file.readBytes(buf, n)`: the next `n` bytes. -/
def readBytes (file : List Byte) (n : Nat) : Option (List Byte × List Byte) :=
  if n ≤ file.length then some (file.take n, file.drop n) else none

def drawBinaryElement (type : Nat) (x y w h : Int) (color : Nat) (name : CStr) : List DrawOp :=
  match type with
  | 1 => [DrawOp.fillRect x y w h color]
  | 2 => [DrawOp.drawRect x y w h color]
  | 3 => [DrawOp.fillRoundRect x y w h 8 color]
  | 4 => [DrawOp.fillCircle (x + Int.tdiv w 2) (y + Int.tdiv h 2) (Int.tdiv (min w h) 2) color]
  | 5 => [DrawOp.drawCircle (x + Int.tdiv w 2) (y + Int.tdiv h 2) (Int.tdiv (min w h) 2) color]
  | 6 => [DrawOp.fillTriangle (x + Int.tdiv w 2) y x (y + h) (x + w) (y + h) color]
  | 7 => [DrawOp.setTextColor color, DrawOp.setTextSize (max 1 (Int.tdiv h 8)),
      DrawOp.drawString (some name) x y]
  | 8 => [DrawOp.setTextColor color, DrawOp.setTextSize (max 1 (Int.tdiv h 8)),
      DrawOp.drawCentreString (some name) (x + Int.tdiv w 2) y 2]
  | _ => []

/-- Size of the stack buffer `char name[32]`. -/
def NAME_BUF : Nat := 32

/-- The variables of one iteration of the element loop, as they stand at the call of
`drawBinaryElement`; `nameLen` is the clamped length, the index where the terminator went. -/
structure BinElement where
  type : Nat
  x : Int
  y : Int
  w : Int
  h : Int
  color : Nat
  nameLen : Nat
  name : CStr
  deriving DecidableEq, Repr

/-- The reads of one iteration of the element loop. The store `name[nameLen] = 0` is defined
only inside the buffer. -/
def readElement (file : List Byte) : Option (BinElement × List Byte) :=
  let (type, file) := readByte file
  match read16 file with
  | none => none
  | some (x, file) =>
  match read16 file with
  | none => none
  | some (y, file) =>
  match read16 file with
  | none => none
  | some (w, file) =>
  match read16 file with
  | none => none
  | some (h, file) =>
  match read16 file with
  | none => none
  | some (color, file) =>
    let (nameLen, file) := readByte file
    let nameLen := if nameLen > 31 then 31 else nameLen
    match readBytes file nameLen with
    | none => none
    | some (name, file) =>
      if nameLen < NAME_BUF then
        some ({ type := type, x := toInt16 x, y := toInt16 y, w := toInt16 w, h := toInt16 h,
                color := color, nameLen := nameLen, name := name }, file)
      else none

def BinElement.draw (e : BinElement) : List DrawOp :=
  drawBinaryElement e.type e.x e.y e.w e.h e.color e.name

/-- The loop `for (int i = 0; i < numElements; i++)`, with the iterations left to run. -/
def renderBinaryLoop : Nat → List Byte → List DrawOp → Option (List DrawOp × List Byte)
  | 0, file, log => some (log, file)
  | n + 1, file, log =>
    match readElement file with
    | none => none
    | some (e, file) => renderBinaryLoop n file (log ++ e.draw)

/-- The part of `renderBinary` after the magic check: version, screen count, first screen. -/
def renderBinaryBody (file : List Byte) : Option (List DrawOp × List Byte) :=
  let (_version, file) := readByte file
  let (numScreens, file) := readByte file
  if numScreens > 0 then
    match read16 file with
    | none => none
    | some (bgColor, file) =>
      let log := [DrawOp.fillScreen bgColor]
      match read16 file with
      | none => none
      | some (numElements, file) => renderBinaryLoop numElements file log
  else some ([], file)

/-- Returns the log of draw operations and the unread rest of the file. -/
def renderBinary (file : List Byte) : Option (List DrawOp × List Byte) :=
  match readBytes file 4 with
  | none => none
  | some (magic, file) =>
    if strcmp magic (asc "P240") ≠ 0 then some ([], file)
    else renderBinaryBody file

/-! ## The binary layout, as the format description gives it

These definitions are written from the layout table of the format (magic, version, screen
count, background colour, element count, element records), not from the decoder. -/

def byte (n : Nat) : Byte := Fin.ofNat n

/-- Two bytes, least significant first. -/
def le16 (v : Nat) : List Byte := [byte (v % 256), byte (v / 256)]

/-- The 16-bit two's-complement pattern of a signed value. -/
def u16 (x : Int) : Nat := (x % 65536).toNat

/-- An element record: type tag, signed box, packed colour, name bytes. -/
structure Record where
  type : Byte
  x : Int
  y : Int
  w : Int
  h : Int
  color : Nat
  name : List Byte
  deriving DecidableEq, Repr

def inInt16 (x : Int) : Prop := -32768 ≤ x ∧ x ≤ 32767

instance (x : Int) : Decidable (inInt16 x) := by unfold inInt16; infer_instance

/-- A record whose fields fit their widths and whose name fits the 31-byte limit. -/
def Record.wf (r : Record) : Prop :=
  inInt16 r.x ∧ inInt16 r.y ∧ inInt16 r.w ∧ inInt16 r.h ∧ r.color < 65536 ∧ r.name.length ≤ 31

instance (r : Record) : Decidable r.wf := by unfold Record.wf; infer_instance

/-- Layout of a record: type, x, y, w, h, colour, name length, name. -/
def encodeRecord (r : Record) : List Byte :=
  [r.type] ++ le16 (u16 r.x) ++ le16 (u16 r.y) ++ le16 (u16 r.w) ++ le16 (u16 r.h)
    ++ le16 r.color ++ [byte r.name.length] ++ r.name

/-- Layout of a stream with one screen block. -/
def encodeStream (version numScreens : Byte) (bgColor : Nat) (recs : List Record) : List Byte :=
  asc "P240" ++ [version, numScreens] ++ le16 bgColor ++ le16 recs.length
    ++ (recs.map encodeRecord).flatten

/-- The dispatch of one record. -/
def Record.draw (r : Record) : List DrawOp :=
  drawBinaryElement r.type.val r.x r.y r.w r.h r.color r.name

/-- The tag of each of the eight type names. -/
def typeTag (type : CStr) : Option Byte :=
  if type = asc "fillRect" then some 1
  else if type = asc "drawRect" then some 2
  else if type = asc "fillRoundRect" then some 3
  else if type = asc "fillCircle" then some 4
  else if type = asc "drawCircle" then some 5
  else if type = asc "fillTriangle" then some 6
  else if type = asc "drawString" then some 7
  else if type = asc "drawCentreString" then some 8
  else none

/-- The record that carries the same data as a document element: the tag of its type, the same
box, the packed value of its colour string, the same name. -/
def Element.toRecord (el : Element) : Record :=
  { type := ((el.type.bind typeTag).getD 0), x := el.x, y := el.y, w := el.w, h := el.h,
    color := hexTo565 el.color, name := el.name.getD [] }

/-- An element of one of the eight shape/text types, with a box in signed 16-bit range and a
name of at most 31 bytes. -/
def Element.encodable (el : Element) : Prop :=
  (el.type.bind typeTag).isSome ∧ inInt16 el.x ∧ inInt16 el.y ∧ inInt16 el.w ∧ inInt16 el.h ∧
    (el.name.map List.length).any (fun n => n ≤ 31)

instance (el : Element) : Decidable el.encodable := by unfold Element.encodable; infer_instance

/-- Two buffers hold the same string. -/
def sameString (a b : CStr) : Bool := cstr a == cstr b

/-- The screen chosen by `activeScreenId`: the first one, in document order, whose id is the
same string. -/
def selectScreen (activeScreenId : CStr) (screens : List Screen) : Option Screen :=
  screens.find? (fun s => s.id.any (fun id => sameString id activeScreenId))

/-- The fill that opens a screen: present exactly when the `backgroundColor` key is. -/
def backgroundFill (screen : Screen) : List DrawOp :=
  match screen.backgroundColor with
  | some colorHex => [DrawOp.fillScreen (hexTo565 colorHex)]
  | none => []

/-- The blit that closes a screen: `/<backgroundAsset>.jpg` at the origin, exactly when the key
is present, its value a non-empty name, and the path exists in storage. -/
def backgroundBlit (fs : CStr → Bool) (screen : Screen) : List DrawOp :=
  match screen.backgroundAsset with
  | some (some a) =>
    if cstr a ≠ [] ∧ fs (asc "/" ++ cstr a ++ asc ".jpg") = true then
      [DrawOp.drawJpgFile (asc "/" ++ cstr a ++ asc ".jpg") 0 0]
    else []
  | _ => []

/-- The draws of the elements of a list, one element after the other. -/
def elementDraws (fs : CStr → Bool) : List Element → Option (List DrawOp)
  | [] => some []
  | el :: els =>
    match renderElement fs el, elementDraws fs els with
    | some a, some b => some (a ++ b)
    | _, _ => none

/-! ## A sample scene -/

def sampleScreen : Screen :=
  { id := some (asc "main"),
    backgroundColor := some (some (asc "#102030")),
    elements :=
      [{ type := some (asc "fillRoundRect"), name := some (asc "card"), x := -5, y := 12,
         w := 100, h := 40, color := some (asc "#F00"), asset := none },
       { type := some (asc "fillCircle"), name := some [], x := 30, y := -7, w := 21, h := -9,
         color := some (asc "#00ff00"), asset := none },
       { type := some (asc "drawCentreString"), name := some (asc "Hello"), x := 0, y := 200,
         w := 240, h := 24, color := none, asset := none }],
    backgroundAsset := none }

def sampleProject : Project :=
  { activeScreenId := some (asc "main"),
    screens :=
      [{ id := some (asc "boot"), backgroundColor := some (some (asc "#FFF")), elements := [],
         backgroundAsset := some (some (asc "logo")) },
       sampleScreen] }

/-! ## Geometry and counting, as the dispatch table words them -/

/-- Integer division that truncates toward zero, for a divisor that is not negative. -/
def truncDiv (a : Int) (b : Nat) : Int :=
  if 0 ≤ a then a / (b : Int) else -((-a) / (b : Int))

/-- The values a 32-bit `int` holds. -/
def inInt32 (z : Int) : Prop := -2147483648 ≤ z ∧ z ≤ 2147483647

instance (z : Int) : Decidable (inInt32 z) := by unfold inInt32; infer_instance

def DrawOp.isFillScreen : DrawOp → Bool
  | DrawOp.fillScreen _ => true
  | _ => false

/-- The blit of an image element: `/<asset>.jpg` at the element's own origin, exactly when the
`asset` key is present, its value a non-empty name, and the path exists in storage. -/
def elementBlit (fs : CStr → Bool) (el : Element) : List DrawOp :=
  match el.asset with
  | some (some a) =>
    if cstr a ≠ [] ∧ fs (asc "/" ++ cstr a ++ asc ".jpg") = true then
      [DrawOp.drawJpgFile (asc "/" ++ cstr a ++ asc ".jpg") el.x el.y]
    else []
  | _ => []

/-- Number of operations the dispatch of a tag performs: one for the six shapes, three for the
two text types (text colour, text scale, then the text itself). -/
def opCount (tag : Nat) : Nat := if tag ≤ 6 then 1 else 3

/-- The primitives of the draw-surface interface, and the image blit of the decoder. -/
inductive Primitive where
  | fillRect
  | strokeRect
  | roundedRect
  | fillCircle
  | strokeCircle
  | fillTriangle
  | setTextColor
  | setTextScale
  | drawTextLeft
  | drawTextCentered
  | fillSurface
  | drawImage
  deriving DecidableEq, Repr

/-- Which primitive an operation of the log is. -/
def DrawOp.primitive : DrawOp → Primitive
  | DrawOp.fillScreen _ => Primitive.fillSurface
  | DrawOp.fillRect _ _ _ _ _ => Primitive.fillRect
  | DrawOp.drawRect _ _ _ _ _ => Primitive.strokeRect
  | DrawOp.fillRoundRect _ _ _ _ _ _ => Primitive.roundedRect
  | DrawOp.fillCircle _ _ _ _ => Primitive.fillCircle
  | DrawOp.drawCircle _ _ _ _ => Primitive.strokeCircle
  | DrawOp.fillTriangle _ _ _ _ _ _ _ => Primitive.fillTriangle
  | DrawOp.setTextColor _ => Primitive.setTextColor
  | DrawOp.setTextSize _ => Primitive.setTextScale
  | DrawOp.drawString _ _ _ => Primitive.drawTextLeft
  | DrawOp.drawCentreString _ _ _ _ => Primitive.drawTextCentered
  | DrawOp.drawJpgFile _ _ _ => Primitive.drawImage

/-- The primitives the dispatch of a tag performs, in order: one for each of the six shapes;
text colour, text scale, then the text draw for the two text types. -/
def primitivesOfTag : Nat → List Primitive
  | 1 => [Primitive.fillRect]
  | 2 => [Primitive.strokeRect]
  | 3 => [Primitive.roundedRect]
  | 4 => [Primitive.fillCircle]
  | 5 => [Primitive.strokeCircle]
  | 6 => [Primitive.fillTriangle]
  | 7 => [Primitive.setTextColor, Primitive.setTextScale, Primitive.drawTextLeft]
  | 8 => [Primitive.setTextColor, Primitive.setTextScale, Primitive.drawTextCentered]
  | _ => []

/-! ## Sample inputs -/

/-- The document `{activeScreenId:"s1", screens:[{id:"s1", backgroundColor:"#000",
elements:[{type:"fillRect", x:10, y:10, w:20, h:20, color:"#F00"}]}]}`. -/
def exampleProject : Project :=
  { activeScreenId := some (asc "s1"),
    screens :=
      [{ id := some (asc "s1"),
         backgroundColor := some (some (asc "#000")),
         elements := [{ type := some (asc "fillRect"), name := none, x := 10, y := 10, w := 20,
                        h := 20, color := some (asc "#F00"), asset := none }],
         backgroundAsset := none }] }

/-- A stream of two records. The first is a `drawString` at `(1, 2)` with `h = 16`, colour 5,
a declared name length of 40 and 40 name bytes `A`; the second is `fillRect(1, 2, 3, 4, 5)`
with an empty name. -/
def oversizedNameStream : List Byte :=
  asc "P240" ++ [1, 1, 0, 0, 2, 0]
    ++ ([7, 1, 0, 2, 0, 3, 0, 16, 0, 5, 0, 40] ++ List.replicate 40 65)
    ++ encodeRecord { type := 1, x := 1, y := 2, w := 3, h := 4, color := 5, name := [] }

/-! ## Lemmas: the colour codec -/

set_option maxRecDepth 100000 in
theorem hexDigit_facts_all : ∀ c : Byte,
    (hexDigitValue c).all (fun d => decide (digitVal c.val = some d ∧ d < 16 ∧ c.val ≠ 0 ∧
      isspace c.val = false ∧ c.val ≠ 45 ∧ c.val ≠ 43 ∧ c.val ≠ 120 ∧ c.val ≠ 88)) = true := by
  decide

theorem hexDigit_facts {c : Byte} {d : Nat} (h : hexDigitValue c = some d) :
    digitVal c.val = some d ∧ d < 16 ∧ c.val ≠ 0 ∧ isspace c.val = false ∧
      c.val ≠ 45 ∧ c.val ≠ 43 ∧ c.val ≠ 120 ∧ c.val ≠ 88 := by
  have := hexDigit_facts_all c
  rw [h] at this
  simpa using this

theorem shrAnd_natCast (n k m : Nat) : shrAnd (n : Int) k m = (n >>> k) &&& m := by
  rfl

theorem strtol16_hex6 {c1 c2 c3 c4 c5 c6 : Byte} {d1 d2 d3 d4 d5 d6 : Nat}
    (h1 : hexDigitValue c1 = some d1) (h2 : hexDigitValue c2 = some d2)
    (h3 : hexDigitValue c3 = some d3) (h4 : hexDigitValue c4 = some d4)
    (h5 : hexDigitValue c5 = some d5) (h6 : hexDigitValue c6 = some d6) :
    strtol16 [c1, c2, c3, c4, c5, c6]
      = ((((((d1 * 16 + d2) * 16 + d3) * 16 + d4) * 16 + d5) * 16 + d6 : Nat) : Int) := by
  obtain ⟨a1, b1, n1, s1, m1, p1, x1, y1⟩ := hexDigit_facts h1
  obtain ⟨a2, b2, n2, s2, m2, p2, x2, y2⟩ := hexDigit_facts h2
  obtain ⟨a3, b3, -⟩ := hexDigit_facts h3
  obtain ⟨a4, b4, -⟩ := hexDigit_facts h4
  obtain ⟨a5, b5, -⟩ := hexDigit_facts h5
  obtain ⟨a6, b6, -⟩ := hexDigit_facts h6
  have hle : ¬ ((((((d1 * 16 + d2) * 16 + d3) * 16 + d4) * 16 + d5) * 16 + d6) > LONG_MAX) := by
    unfold LONG_MAX; omega
  simp [strtol16, skipSpaces, s1, m1, p1, skipHexPrefix, x2, y2, strtolDigits, a1, a2, a3, a4, a5,
    a6, b1, b2, b3, b4, b5, b6, hle]


theorem and_255 (x : Nat) : x &&& 255 = x % 256 := Nat.and_pow_two_sub_one_eq_mod x 8
theorem and_15 (x : Nat) : x &&& 15 = x % 16 := Nat.and_pow_two_sub_one_eq_mod x 4
theorem and_31 (x : Nat) : x &&& 31 = x % 32 := Nat.and_pow_two_sub_one_eq_mod x 5
theorem and_63 (x : Nat) : x &&& 63 = x % 64 := Nat.and_pow_two_sub_one_eq_mod x 6

theorem or3_eq_add (k1 k2 a b c : Nat) (hb : b < 2 ^ k1) (hc : c < 2 ^ k2) :
    (a <<< (k1 + k2)) ||| (b <<< k2) ||| c = (a * 2 ^ k1 + b) * 2 ^ k2 + c := by
  have hb2 : b * 2 ^ k2 < 2 ^ (k1 + k2) := by
    rw [Nat.pow_add]
    exact Nat.mul_lt_mul_of_pos_right hb (Nat.two_pow_pos k2)
  have e1 : (a <<< (k1 + k2)) ||| (b <<< k2) = 2 ^ k2 * (a * 2 ^ k1 + b) := by
    rw [Nat.shiftLeft_eq, Nat.shiftLeft_eq, Nat.mul_comm a, ← Nat.mul_add_lt_is_or hb2,
      Nat.pow_add]
    ring
  rw [e1, ← Nat.mul_add_lt_is_or hc, Nat.mul_comm]

theorem rgb_bytes (r g b : Nat) (hg : g < 256) (hb : b < 256) :
    (r <<< 16) ||| (g <<< 8) ||| b = (r * 256 + g) * 256 + b :=
  or3_eq_add 8 8 r g b hg hb

theorem rgb565_bits (R G B : Nat) (hG : G < 64) (hB : B < 32) :
    (R <<< 11) ||| (G <<< 5) ||| B = (R * 64 + G) * 32 + B :=
  or3_eq_add 6 5 R G B hG hB

set_option maxRecDepth 100000 in
theorem red_bits : ∀ r, r < 256 → (r &&& 0xF8) <<< 8 = (r >>> 3) <<< 11 := by decide

set_option maxRecDepth 100000 in
theorem green_bits : ∀ g, g < 256 → (g &&& 0xFC) <<< 3 = (g >>> 2) <<< 5 := by decide

theorem nibble_double : ∀ d, d < 16 → (d <<< 4) ||| d = d * 16 + d := by decide


/-- The value `hexTo565` computes from the parsed number once the 3-digit branch is passed. -/
theorem hexTo565_of_strtol (s : CStr) (n : Nat) (h0 : firstChar s = 35) (hlen : strlen s ≠ 4)
    (hn : strtol16 (s.drop 1) = (n : Int)) :
    hexTo565 (some s) = ((((((n >>> 16) &&& 0xFF) &&& 0xF8) <<< 8)
      ||| ((((n >>> 8) &&& 0xFF) &&& 0xFC) <<< 3)) ||| (((n >>> 0) &&& 0xFF) >>> 3)) % 65536 := by
  simp only [hexTo565, h0, hn, hlen, shrAnd_natCast, ne_eq, not_true_eq_false, if_false]

theorem pack_channels (r g b : Nat) (hr : r < 256) (hg : g < 256) (hb : b < 256) :
    ((((((((r * 256 + g) * 256 + b) >>> 16) &&& 0xFF) &&& 0xF8) <<< 8)
      ||| ((((((r * 256 + g) * 256 + b) >>> 8) &&& 0xFF) &&& 0xFC) <<< 3))
      ||| (((((r * 256 + g) * 256 + b) >>> 0) &&& 0xFF) >>> 3)) % 65536
      = ((r >>> 3) <<< 11) ||| ((g >>> 2) <<< 5) ||| (b >>> 3) := by
  have e1 : ((((r * 256 + g) * 256 + b) >>> 16) &&& 0xFF) = r := by
    rw [and_255, Nat.shiftRight_eq_div_pow]; omega
  have e2 : ((((r * 256 + g) * 256 + b) >>> 8) &&& 0xFF) = g := by
    rw [and_255, Nat.shiftRight_eq_div_pow]; omega
  have e3 : ((((r * 256 + g) * 256 + b) >>> 0) &&& 0xFF) = b := by
    rw [and_255, Nat.shiftRight_eq_div_pow]; omega
  rw [e1, e2, e3, red_bits r hr, green_bits g hg]
  apply Nat.mod_eq_of_lt
  have hG : g >>> 2 < 64 := by rw [Nat.shiftRight_eq_div_pow]; omega
  have hB : b >>> 3 < 32 := by rw [Nat.shiftRight_eq_div_pow]; omega
  have hR : r >>> 3 < 32 := by rw [Nat.shiftRight_eq_div_pow]; omega
  rw [rgb565_bits _ _ _ hG hB]
  omega

theorem strlen_cons {c : Byte} (hc : c.val ≠ 0) (s : CStr) : strlen (c :: s) = strlen s + 1 := by
  unfold strlen cstr
  rw [List.takeWhile_cons]
  simp [hc]

theorem strlen_nil : strlen [] = 0 := rfl

theorem strtol16_hex3 {c1 c2 c3 : Byte} {d1 d2 d3 : Nat}
    (h1 : hexDigitValue c1 = some d1) (h2 : hexDigitValue c2 = some d2)
    (h3 : hexDigitValue c3 = some d3) :
    strtol16 [c1, c2, c3] = (((d1 * 16 + d2) * 16 + d3 : Nat) : Int) := by
  obtain ⟨a1, b1, n1, s1, m1, p1, x1, y1⟩ := hexDigit_facts h1
  obtain ⟨a2, b2, n2, s2, m2, p2, x2, y2⟩ := hexDigit_facts h2
  obtain ⟨a3, b3, -⟩ := hexDigit_facts h3
  have hle : ¬ (((d1 * 16 + d2) * 16 + d3) > LONG_MAX) := by
    unfold LONG_MAX; omega
  simp [strtol16, skipSpaces, s1, m1, p1, skipHexPrefix, x2, y2, strtolDigits, a1, a2, a3,
    b1, b2, b3, hle]

/-- The six-digit path: the packed value in terms of the three channel bytes. -/
theorem hexTo565_hex6 {c1 c2 c3 c4 c5 c6 : Byte} {d1 d2 d3 d4 d5 d6 : Nat}
    (h1 : hexDigitValue c1 = some d1) (h2 : hexDigitValue c2 = some d2)
    (h3 : hexDigitValue c3 = some d3) (h4 : hexDigitValue c4 = some d4)
    (h5 : hexDigitValue c5 = some d5) (h6 : hexDigitValue c6 = some d6) :
    hexTo565 (some (35 :: [c1, c2, c3, c4, c5, c6]))
        = (((d1 * 16 + d2) >>> 3) <<< 11) ||| (((d3 * 16 + d4) >>> 2) <<< 5)
            ||| ((d5 * 16 + d6) >>> 3) := by
  obtain ⟨-, b1, n1, -⟩ := hexDigit_facts h1
  obtain ⟨-, b2, n2, -⟩ := hexDigit_facts h2
  obtain ⟨-, b3, n3, -⟩ := hexDigit_facts h3
  obtain ⟨-, b4, n4, -⟩ := hexDigit_facts h4
  obtain ⟨-, b5, n5, -⟩ := hexDigit_facts h5
  obtain ⟨-, b6, n6, -⟩ := hexDigit_facts h6
  have hlen : strlen (35 :: [c1, c2, c3, c4, c5, c6]) ≠ 4 := by
    rw [strlen_cons (by decide), strlen_cons n1, strlen_cons n2, strlen_cons n3, strlen_cons n4,
      strlen_cons n5, strlen_cons n6, strlen_nil]
    decide
  have hn : strtol16 ((35 :: [c1, c2, c3, c4, c5, c6]).drop 1)
      = ((((d1 * 16 + d2) * 256 + (d3 * 16 + d4)) * 256 + (d5 * 16 + d6) : Nat) : Int) := by
    rw [List.drop_one, List.tail_cons, strtol16_hex6 h1 h2 h3 h4 h5 h6]
    congr 1
    ring
  have key := hexTo565_of_strtol (35 :: [c1, c2, c3, c4, c5, c6]) _ (by rfl) hlen hn
  rw [pack_channels _ _ _ (by omega) (by omega) (by omega)] at key
  exact key

/-- The three-digit path: each nibble `d` becomes the byte `d * 16 + d` before packing. -/
theorem hexTo565_hex3 {c1 c2 c3 : Byte} {d1 d2 d3 : Nat}
    (h1 : hexDigitValue c1 = some d1) (h2 : hexDigitValue c2 = some d2)
    (h3 : hexDigitValue c3 = some d3) :
    hexTo565 (some (35 :: [c1, c2, c3]))
        = (((d1 * 16 + d1) >>> 3) <<< 11) ||| (((d2 * 16 + d2) >>> 2) <<< 5)
            ||| ((d3 * 16 + d3) >>> 3) := by
  obtain ⟨-, b1, n1, -⟩ := hexDigit_facts h1
  obtain ⟨-, b2, n2, -⟩ := hexDigit_facts h2
  obtain ⟨-, b3, n3, -⟩ := hexDigit_facts h3
  have hlen : strlen (35 :: [c1, c2, c3]) = 4 := by
    rw [strlen_cons (by decide), strlen_cons n1, strlen_cons n2, strlen_cons n3, strlen_nil]
  have hn : strtol16 ((35 :: [c1, c2, c3]).drop 1) = (((d1 * 16 + d2) * 16 + d3 : Nat) : Int) := by
    rw [List.drop_one, List.tail_cons, strtol16_hex3 h1 h2 h3]
  have e1 : (((d1 * 16 + d2) * 16 + d3) >>> 8) &&& 0xF = d1 := by
    rw [and_15, Nat.shiftRight_eq_div_pow]; omega
  have e2 : (((d1 * 16 + d2) * 16 + d3) >>> 4) &&& 0xF = d2 := by
    rw [and_15, Nat.shiftRight_eq_div_pow]; omega
  have e3 : (((d1 * 16 + d2) * 16 + d3) >>> 0) &&& 0xF = d3 := by
    rw [and_15, Nat.shiftRight_eq_div_pow]; omega
  have hf : firstChar (35 :: [c1, c2, c3]) = 35 := rfl
  simp only [hexTo565, hf, hn, hlen, shrAnd_natCast, ne_eq, not_true_eq_false, if_false,
    if_true, e1, e2, e3, nibble_double d1 b1, nibble_double d2 b2, nibble_double d3 b3]
  rw [rgb_bytes _ _ _ (by omega) (by omega)]
  exact pack_channels _ _ _ (by omega) (by omega) (by omega)

/-- C3: for a six-digit colour `#RRGGBB` whose channel bytes are `r`, `g`, `b`, `hexTo565`
returns `((r >> 3) << 11) | ((g >> 2) << 5) | (b >> 3)`; bits 15..11 of the result are the top
five bits of `r`, bits 10..5 the top six bits of `g`, bits 4..0 the top five bits of `b`. -/
theorem hexTo565_six_digit (c1 c2 c3 c4 c5 c6 : Byte) (d1 d2 d3 d4 d5 d6 : Nat)
    (h1 : hexDigitValue c1 = some d1) (h2 : hexDigitValue c2 = some d2)
    (h3 : hexDigitValue c3 = some d3) (h4 : hexDigitValue c4 = some d4)
    (h5 : hexDigitValue c5 = some d5) (h6 : hexDigitValue c6 = some d6) :
    hexTo565 (some (35 :: [c1, c2, c3, c4, c5, c6]))
        = (((d1 * 16 + d2) >>> 3) <<< 11) ||| (((d3 * 16 + d4) >>> 2) <<< 5)
            ||| ((d5 * 16 + d6) >>> 3)
      ∧ (hexTo565 (some (35 :: [c1, c2, c3, c4, c5, c6])) >>> 11) &&& 0x1F
          = (d1 * 16 + d2) >>> 3
      ∧ (hexTo565 (some (35 :: [c1, c2, c3, c4, c5, c6])) >>> 5) &&& 0x3F
          = (d3 * 16 + d4) >>> 2
      ∧ hexTo565 (some (35 :: [c1, c2, c3, c4, c5, c6])) &&& 0x1F = (d5 * 16 + d6) >>> 3 := by
  have key := hexTo565_hex6 h1 h2 h3 h4 h5 h6
  obtain ⟨-, b1, -⟩ := hexDigit_facts h1
  obtain ⟨-, b2, -⟩ := hexDigit_facts h2
  obtain ⟨-, b3, -⟩ := hexDigit_facts h3
  obtain ⟨-, b4, -⟩ := hexDigit_facts h4
  obtain ⟨-, b5, -⟩ := hexDigit_facts h5
  obtain ⟨-, b6, -⟩ := hexDigit_facts h6
  have hG : (d3 * 16 + d4) >>> 2 < 64 := by rw [Nat.shiftRight_eq_div_pow]; omega
  have hB : (d5 * 16 + d6) >>> 3 < 32 := by rw [Nat.shiftRight_eq_div_pow]; omega
  have hR : (d1 * 16 + d2) >>> 3 < 32 := by rw [Nat.shiftRight_eq_div_pow]; omega
  rw [key]
  refine ⟨rfl, ?_, ?_, ?_⟩
  · rw [rgb565_bits _ _ _ hG hB, and_31, Nat.shiftRight_eq_div_pow]; omega
  · rw [rgb565_bits _ _ _ hG hB, and_63, Nat.shiftRight_eq_div_pow]; omega
  · rw [rgb565_bits _ _ _ hG hB, and_31]; omega

theorem hexTo565_six_digit_witness :
    (hexDigitValue 51 = some 3 ∧ hexDigitValue 102 = some 15 ∧ hexDigitValue 65 = some 10 ∧
      hexDigitValue 50 = some 2 ∧ hexDigitValue 99 = some 12 ∧ hexDigitValue 56 = some 8) ∧
    hexTo565 (some (asc "#3fA2c8")) = 0x3D19 :=
  ⟨by decide,
   (hexTo565_six_digit 51 102 65 50 99 56 3 15 10 2 12 8 (by decide) (by decide) (by decide)
      (by decide) (by decide) (by decide)).1⟩

/-- C4: for a three-digit colour `#RGB`, `hexTo565` returns what it returns for `#RRGGBB`:
every nibble `d` is doubled to the byte `d * 16 + d` (`0xA` becomes `0xAA`) and the bytes are
packed as on the six-digit path. -/
theorem hexTo565_three_digit (c1 c2 c3 : Byte) (d1 d2 d3 : Nat)
    (h1 : hexDigitValue c1 = some d1) (h2 : hexDigitValue c2 = some d2)
    (h3 : hexDigitValue c3 = some d3) :
    hexTo565 (some (35 :: [c1, c2, c3])) = hexTo565 (some (35 :: [c1, c1, c2, c2, c3, c3]))
      ∧ hexTo565 (some (35 :: [c1, c2, c3]))
          = (((d1 * 16 + d1) >>> 3) <<< 11) ||| (((d2 * 16 + d2) >>> 2) <<< 5)
              ||| ((d3 * 16 + d3) >>> 3) := by
  rw [hexTo565_hex3 h1 h2 h3, hexTo565_hex6 h1 h1 h2 h2 h3 h3]
  exact ⟨rfl, rfl⟩

theorem hexTo565_three_digit_witness :
    (hexDigitValue 65 = some 10 ∧ hexDigitValue 55 = some 7 ∧ hexDigitValue 101 = some 14) ∧
    hexTo565 (some (asc "#A7e")) = hexTo565 (some (asc "#AA77ee")) :=
  ⟨by decide, (hexTo565_three_digit 65 55 101 10 7 14 (by decide) (by decide) (by decide)).1⟩

/-- C5: `hexTo565` returns `0x0000` for the null pointer, for the empty string, and for every
string whose first character is not `#`, whatever follows it. -/
theorem hexTo565_absent :
    hexTo565 none = 0x0000 ∧ hexTo565 (some []) = 0x0000 ∧
      ∀ (c : Byte) (rest : CStr), c ≠ 35 → hexTo565 (some (c :: rest)) = 0x0000 := by
  refine ⟨rfl, rfl, ?_⟩
  intro c rest hc
  have hv : c.val ≠ 35 := fun h => hc (Fin.ext h)
  simp [hexTo565, firstChar, hv]

theorem hexTo565_absent_witness :
    (70 : Byte) ≠ 35 ∧ hexTo565 (some (asc "FF0000")) = 0x0000 :=
  ⟨by decide, hexTo565_absent.2.2 70 (asc "F0000") (by decide)⟩


/-! ## Lemmas: strings -/

theorem asc_P240 : asc "P240" = [80, 50, 52, 48] := by decide

theorem strcmp_eq_zero_iff (a b : CStr) : strcmp a b = 0 ↔ cstr a = cstr b := by
  induction a generalizing b with
  | nil =>
    cases b with
    | nil => simp [strcmp, cstr]
    | cons y ys =>
      by_cases hy : y.val = 0
      · simp [strcmp, cstr, List.takeWhile_cons, hy]
      · simp [strcmp, cstr, List.takeWhile_cons, hy]
  | cons x xs ih =>
    cases b with
    | nil =>
      by_cases hx : x.val = 0
      · simp [strcmp, cstr, List.takeWhile_cons, hx]
      · simp [strcmp, cstr, List.takeWhile_cons, hx]
    | cons y ys =>
      by_cases hxy : x.val = y.val
      · have exy : x = y := Fin.ext hxy
        subst exy
        by_cases hx : x.val = 0
        · simp [strcmp, cstr, List.takeWhile_cons, hx]
        · have := ih ys
          simp only [cstr] at this
          simp [strcmp, cstr, List.takeWhile_cons, hx, this]
      · have hne : x ≠ y := fun h => hxy (congrArg Fin.val h)
        by_cases hx : x.val = 0 <;> by_cases hy : y.val = 0
        · omega
        · simp [strcmp, cstr, List.takeWhile_cons, hx, hy, hxy]
          omega
        · simp [strcmp, cstr, List.takeWhile_cons, hx, hy, hxy]
        · simp [strcmp, cstr, List.takeWhile_cons, hx, hy, hxy, hne]
          omega

theorem magic_ok (b0 b1 b2 b3 : Byte) :
    strcmp [b0, b1, b2, b3] (asc "P240") = 0 ↔ [b0, b1, b2, b3] = asc "P240" := by
  rw [asc_P240]
  constructor
  · intro h
    simp only [strcmp] at h
    split_ifs at h with h0 z0 h1 z1 h2 z2 h3 z3
    all_goals first
      | exact absurd (Int.ofNat_inj.mp (sub_eq_zero.mp h)) (by assumption)
      | exact absurd (not_not.mp h0) (by rw [z0]; decide)
      | exact absurd (not_not.mp h1) (by rw [z1]; decide)
      | exact absurd (not_not.mp h2) (by rw [z2]; decide)
      | exact absurd (not_not.mp h3) (by rw [z3]; decide)
      | rw [Fin.ext (not_not.mp h0), Fin.ext (not_not.mp h1), Fin.ext (not_not.mp h2),
          Fin.ext (not_not.mp h3)]
  · intro h
    rw [h]
    decide


/-! ## The magic check -/

/-- C6: a stream of at least four bytes whose first four bytes are not `P240` draws nothing
(no `fillScreen` either), whatever follows; a stream that starts with `P240` passes the check
and goes on to the version byte. -/
theorem renderBinary_magic (b0 b1 b2 b3 : Byte) (rest : List Byte) :
    ([b0, b1, b2, b3] ≠ asc "P240" →
        renderBinary (b0 :: b1 :: b2 :: b3 :: rest) = some ([], rest))
      ∧ renderBinary (asc "P240" ++ rest) = renderBinaryBody rest := by
  constructor
  · intro hne
    have hcmp : strcmp [b0, b1, b2, b3] (asc "P240") ≠ 0 := fun h => hne ((magic_ok _ _ _ _).mp h)
    simp [renderBinary, readBytes, hcmp]
  · have hcmp : strcmp [80, 50, 52, 48] [80, 50, 52, 48] = 0 := by decide
    simp [renderBinary, readBytes, asc_P240, hcmp]

theorem renderBinary_magic_witness :
    ([80, 50, 52, 0] : List Byte) ≠ asc "P240" ∧
      renderBinary [80, 50, 52, 0, 1, 1, 0xFF, 0xFF, 0, 0] = some ([], [1, 1, 0xFF, 0xFF, 0, 0]) :=
  ⟨by decide, (renderBinary_magic 80 50 52 0 [1, 1, 0xFF, 0xFF, 0, 0]).1 (by decide)⟩

/-! ## The document walker -/

theorem renderProjectLoop_eq (fs : CStr → Bool) (a : CStr) (screens : List Screen)
    (hid : ∀ s ∈ screens, s.id ≠ none) :
    renderProjectLoop fs a screens =
      match selectScreen a screens with
      | some s => renderScreen fs s
      | none => some [] := by
  induction screens with
  | nil => rfl
  | cons s rest ih =>
    have hs : s.id ≠ none := hid s (List.mem_cons_self _ _)
    have hrest : ∀ t ∈ rest, t.id ≠ none := fun t ht => hid t (List.mem_cons_of_mem _ ht)
    cases hsid : s.id with
    | none => exact absurd hsid hs
    | some id =>
      by_cases hm : strcmp id a = 0
      · have hc : cstr id = cstr a := (strcmp_eq_zero_iff _ _).mp hm
        simp [renderProjectLoop, selectScreen, List.find?, hsid, hm, sameString, hc]
      · have hc : ¬ cstr id = cstr a := fun h => hm ((strcmp_eq_zero_iff _ _).mpr h)
        have hb : (cstr id == cstr a) = false := by simp [hc]
        have := ih hrest
        simp only [selectScreen, sameString] at this
        simp [renderProjectLoop, selectScreen, List.find?, hsid, hm, sameString, hb, this]

/-- C7: when every screen has an id, `renderProject` emits exactly what `renderScreen` emits
for the first screen, in document order, whose id is the string `activeScreenId`, and nothing
of any other screen; it emits nothing when `activeScreenId` is absent or matches no screen. -/
theorem renderProject_selects (fs : CStr → Bool) (doc : Project)
    (hid : ∀ s ∈ doc.screens, s.id ≠ none) :
    renderProject fs doc =
      match doc.activeScreenId with
      | none => some []
      | some a =>
        match selectScreen a doc.screens with
        | some s => renderScreen fs s
        | none => some [] := by
  unfold renderProject
  cases doc.activeScreenId with
  | none => rfl
  | some a => exact renderProjectLoop_eq fs a doc.screens hid

theorem renderProject_selects_witness :
    (∀ s ∈ [({ id := some (asc "a"), backgroundColor := some (some (asc "#F00")), elements := [],
                backgroundAsset := none } : Screen),
             { id := some (asc "b"), backgroundColor := some (some (asc "#00F")), elements := [],
                backgroundAsset := none }], s.id ≠ none) ∧
      renderProject (fun _ => false)
        { activeScreenId := some (asc "b"),
          screens := [{ id := some (asc "a"), backgroundColor := some (some (asc "#F00")),
                        elements := [], backgroundAsset := none },
                      { id := some (asc "b"), backgroundColor := some (some (asc "#00F")),
                        elements := [], backgroundAsset := none }] }
        = some [DrawOp.fillScreen 0x001F] :=
  ⟨by decide, (renderProject_selects (fun _ => false) _ (by decide)).trans (by decide)⟩

theorem renderElements_eq (fs : CStr → Bool) (els : List Element) (log : List DrawOp) :
    renderElements fs els log = (elementDraws fs els).map (fun ds => log ++ ds) := by
  induction els generalizing log with
  | nil => simp [renderElements, elementDraws]
  | cons el els ih =>
    cases h1 : renderElement fs el with
    | none => simp [renderElements, elementDraws, h1]
    | some a =>
      cases h2 : elementDraws fs els with
      | none => simp [renderElements, elementDraws, h1, h2, ih]
      | some b => simp [renderElements, elementDraws, h1, h2, ih]

theorem strlen_pos_iff (a : CStr) : strlen a > 0 ↔ cstr a ≠ [] := by
  unfold strlen
  exact List.length_pos

theorem drawAsset_eq (fs : CStr → Bool) (screen : Screen) :
    (match screen.backgroundAsset with
      | some assetName => drawAsset fs assetName 0 0
      | none => []) = backgroundBlit fs screen := by
  unfold backgroundBlit
  cases screen.backgroundAsset with
  | none => rfl
  | some v =>
    cases v with
    | none => rfl
    | some a =>
      by_cases hl : cstr a = []
      · have : ¬ strlen a > 0 := fun h => (strlen_pos_iff a).mp h hl
        simp [drawAsset, this, hl]
      · have : strlen a > 0 := (strlen_pos_iff a).mpr hl
        by_cases hf : fs (asc "/" ++ cstr a ++ asc ".jpg") = true
        · simp [drawAsset, this, hl, jpgPath, hf]
        · simp [drawAsset, this, hl, jpgPath, hf]

theorem renderScreen_eq (fs : CStr → Bool) (screen : Screen) :
    renderScreen fs screen =
      (elementDraws fs screen.elements).map
        (fun ds => backgroundFill screen ++ ds ++ backgroundBlit fs screen) := by
  rw [← drawAsset_eq]
  simp only [renderScreen, backgroundFill, renderElements_eq]
  cases elementDraws fs screen.elements with
  | none => rfl
  | some ds =>
    cases screen.backgroundAsset with
    | none => simp
    | some v => simp


/-- C8: the draw sequence of `renderScreen` is the background fill (present exactly when the
`backgroundColor` key is), then the draws of the elements in document order, then last the
blit of `/<backgroundAsset>.jpg` at the origin (present exactly when the key is there, names a
non-empty string and the path exists): no element draw comes before the fill or after the
blit. -/
theorem renderScreen_order (fs : CStr → Bool) (screen : Screen) :
    renderScreen fs screen =
      (elementDraws fs screen.elements).map
        (fun ds => backgroundFill screen ++ ds ++ backgroundBlit fs screen) :=
  renderScreen_eq fs screen

/-! ## Lemmas: the binary layout -/

theorem byte_val (n : Nat) : (byte n).val = n % 256 := rfl

theorem read16_le16 (v : Nat) (hv : v < 65536) (rest : List Byte) :
    read16 (le16 v ++ rest) = some (v, rest) := by
  simp only [le16, read16, List.cons_append, List.nil_append, byte_val]
  congr 2
  omega

theorem toInt16_u16 (x : Int) (hx : inInt16 x) : toInt16 (u16 x) = x := by
  unfold inInt16 at hx
  unfold toInt16 u16
  split_ifs with h <;> omega

theorem u16_lt (x : Int) : u16 x < 65536 := by
  unfold u16
  omega

theorem readBytes_append (name rest : List Byte) :
    readBytes (name ++ rest) name.length = some (name, rest) := by
  simp [readBytes]

theorem readElement_encode (r : Record) (hr : r.wf) (rest : List Byte) :
    readElement (encodeRecord r ++ rest) =
      some ({ type := r.type.val, x := r.x, y := r.y, w := r.w, h := r.h, color := r.color,
              nameLen := r.name.length, name := r.name }, rest) := by
  obtain ⟨hx, hy, hw, hh, hc, hn⟩ := hr
  have hlen : (byte r.name.length).val = r.name.length := by rw [byte_val]; omega
  have hclamp : ¬ r.name.length > 31 := by omega
  have hbuf : r.name.length < NAME_BUF := by unfold NAME_BUF; omega
  simp only [encodeRecord, readElement, readByte, List.cons_append, List.nil_append,
    List.append_assoc, read16_le16 _ (u16_lt _), read16_le16 _ hc, hlen, hclamp, if_false,
    readBytes_append, hbuf, if_true, toInt16_u16 _ hx, toInt16_u16 _ hy, toInt16_u16 _ hw,
    toInt16_u16 _ hh]

theorem renderBinaryLoop_encode (recs : List Record) (hr : ∀ r ∈ recs, r.wf)
    (rest : List Byte) (log : List DrawOp) :
    renderBinaryLoop recs.length ((recs.map encodeRecord).flatten ++ rest) log =
      some (log ++ (recs.map Record.draw).flatten, rest) := by
  induction recs generalizing log with
  | nil => simp [renderBinaryLoop]
  | cons r recs ih =>
    have h1 : r.wf := hr r (List.mem_cons_self _ _)
    have h2 : ∀ t ∈ recs, t.wf := fun t ht => hr t (List.mem_cons_of_mem _ ht)
    simp only [List.length_cons, List.map_cons, List.flatten_cons, List.append_assoc,
      renderBinaryLoop, readElement_encode r h1, ih h2]
    simp [BinElement.draw, Record.draw]

theorem renderBinary_encode (version numScreens : Byte) (bgColor : Nat) (recs : List Record)
    (rest : List Byte) (hs : 1 ≤ numScreens.val) (hbg : bgColor < 65536)
    (hn : recs.length < 65536) (hr : ∀ r ∈ recs, r.wf) :
    renderBinary (encodeStream version numScreens bgColor recs ++ rest) =
      some (DrawOp.fillScreen bgColor :: (recs.map Record.draw).flatten, rest) := by
  have hcmp : strcmp [80, 50, 52, 48] [80, 50, 52, 48] = 0 := by decide
  have hpos : numScreens.val > 0 := hs
  simp only [encodeStream, asc_P240, renderBinary, readBytes, List.cons_append, List.nil_append,
    List.append_assoc, List.length_cons]
  simp [hcmp, renderBinaryBody, readByte, hpos, read16_le16 _ hbg, read16_le16 _ hn,
    renderBinaryLoop_encode recs hr]


theorem le16_bytes (lo hi : Byte) : le16 (lo.val + 256 * hi.val) = [lo, hi] := by
  have h1 := lo.isLt
  have h2 := hi.isLt
  simp only [le16, List.cons.injEq, and_true]
  constructor
  · apply Fin.ext
    rw [byte_val]
    omega
  · apply Fin.ext
    rw [byte_val]
    omega

theorem u16_toInt16 (v : Nat) (hv : v < 65536) : u16 (toInt16 v) = v ∧ inInt16 (toInt16 v) := by
  unfold u16 toInt16 inInt16
  split_ifs with h <;> omega

theorem drawBinaryElement_unknown (t : Nat) (x y w h : Int) (color : Nat) (name : CStr)
    (ht : t = 0 ∨ 9 ≤ t) : drawBinaryElement t x y w h color name = [] := by
  unfold drawBinaryElement
  split <;> first | rfl | omega

/-! ## The binary decoder -/

/-- C2: on a well-formed stream (magic `P240`, any version byte, a screen count of at least 1,
a 2-byte background colour, a 2-byte element count `n` and `n` complete records whose names
are at most 31 bytes long) `renderBinary` emits `fillScreen(bgColor)` first and then, in stream
order, the dispatch of each record, with every 2-byte field read little-endian, the box as
signed 16-bit values, the colour unsigned and the label equal to the name bytes. Every
pair of bytes is the little-endian layout of its value, and every 16-bit value the pattern of
the signed value it is read as, so the layout covers all such streams. -/
theorem renderBinary_wellFormed (version numScreens : Byte) (bgColor : Nat)
    (recs : List Record) (rest : List Byte) (hs : 1 ≤ numScreens.val) (hbg : bgColor < 65536)
    (hn : recs.length < 65536) (hr : ∀ r ∈ recs, r.wf) :
    renderBinary (encodeStream version numScreens bgColor recs ++ rest) =
        some (DrawOp.fillScreen bgColor :: (recs.map Record.draw).flatten, rest)
      ∧ (∀ lo hi : Byte, le16 (lo.val + 256 * hi.val) = [lo, hi])
      ∧ (∀ v : Nat, v < 65536 → u16 (toInt16 v) = v ∧ inInt16 (toInt16 v)) :=
  ⟨renderBinary_encode version numScreens bgColor recs rest hs hbg hn hr, le16_bytes,
    u16_toInt16⟩

theorem renderBinary_wellFormed_witness :
    (1 ≤ (2 : Byte).val ∧ 0x1234 < 65536 ∧
      ([{ type := 7, x := -3, y := 2, w := 40, h := 16, color := 0xF800, name := asc "Hi" },
        { type := 4, x := 10, y := 20, w := -8, h := 6, color := 0x07E0, name := [] }]
          : List Record).length < 65536) ∧
    renderBinary
        ([80, 50, 52, 48, 9, 2, 0x34, 0x12, 2, 0,
          7, 0xFD, 0xFF, 2, 0, 40, 0, 16, 0, 0x00, 0xF8, 2, 72, 105,
          4, 10, 0, 20, 0, 0xF8, 0xFF, 6, 0, 0xE0, 0x07, 0] ++ [1, 2, 3])
      = some ([DrawOp.fillScreen 0x1234, DrawOp.setTextColor 0xF800, DrawOp.setTextSize 2,
          DrawOp.drawString (some (asc "Hi")) (-3) 2, DrawOp.fillCircle 6 23 (-4) 0x07E0],
          [1, 2, 3]) :=
  ⟨by decide,
   (renderBinary_wellFormed 9 2 0x1234
      [{ type := 7, x := -3, y := 2, w := 40, h := 16, color := 0xF800, name := asc "Hi" },
       { type := 4, x := 10, y := 20, w := -8, h := 6, color := 0x07E0, name := [] }]
      [1, 2, 3] (by decide) (by decide) (by decide) (by decide)).1⟩

/-- C9: in a well-formed stream a record whose type byte is outside 1..8 (0 or 9..255) emits
no draw operation, the run equals the run on the stream without that record (element count
one less), and the decoder stands at the same position after the record as after a record of
any other type with the same fields. -/
theorem renderBinary_unknown_type (version numScreens : Byte) (bgColor : Nat)
    (pre post : List Record) (r : Record) (rest : List Byte)
    (hs : 1 ≤ numScreens.val) (hbg : bgColor < 65536)
    (hn : (pre ++ r :: post).length < 65536)
    (hpre : ∀ t ∈ pre, t.wf) (hr : r.wf) (hpost : ∀ t ∈ post, t.wf)
    (ht : r.type.val = 0 ∨ 9 ≤ r.type.val) :
    r.draw = []
      ∧ renderBinary (encodeStream version numScreens bgColor (pre ++ r :: post) ++ rest)
          = renderBinary (encodeStream version numScreens bgColor (pre ++ post) ++ rest)
      ∧ renderBinary (encodeStream version numScreens bgColor (pre ++ r :: post) ++ rest)
          = some (DrawOp.fillScreen bgColor :: ((pre ++ post).map Record.draw).flatten, rest)
      ∧ ∀ (t : Byte) (tail : List Byte),
          (readElement (encodeRecord { r with type := t } ++ tail)).map Prod.snd = some tail := by
  have hd : r.draw = [] := drawBinaryElement_unknown _ _ _ _ _ _ _ ht
  have hall : ∀ t ∈ pre ++ r :: post, t.wf := by
    intro t ht
    rcases List.mem_append.mp ht with h | h
    · exact hpre t h
    · rcases List.mem_cons.mp h with h | h
      · exact h ▸ hr
      · exact hpost t h
  have hall2 : ∀ t ∈ pre ++ post, t.wf := by
    intro t ht
    rcases List.mem_append.mp ht with h | h
    · exact hpre t h
    · exact hpost t h
  have hn2 : (pre ++ post).length < 65536 := by
    simp only [List.length_append, List.length_cons] at hn ⊢
    omega
  have e1 := renderBinary_encode version numScreens bgColor (pre ++ r :: post) rest hs hbg hn hall
  have e2 := renderBinary_encode version numScreens bgColor (pre ++ post) rest hs hbg hn2 hall2
  have e3 : ((pre ++ r :: post).map Record.draw).flatten = ((pre ++ post).map Record.draw).flatten := by
    simp [hd]
  refine ⟨hd, ?_, ?_, ?_⟩
  · rw [e1, e2, e3]
  · rw [e1, e3]
  · intro t tail
    have hw : ({ r with type := t } : Record).wf := hr
    rw [readElement_encode _ hw]
    rfl


theorem renderBinary_unknown_type_witness :
    (1 ≤ (1 : Byte).val ∧ 0 < 65536 ∧ ((9 : Byte).val = 0 ∨ 9 ≤ (9 : Byte).val)) ∧
      renderBinary (encodeStream 1 1 0
          ([{ type := 1, x := 1, y := 2, w := 3, h := 4, color := 5, name := [] }] ++
            { type := 9, x := 6, y := 7, w := 8, h := 9, color := 10, name := asc "n" } ::
            [{ type := 2, x := 11, y := 12, w := 13, h := 14, color := 15, name := [] }]) ++ [])
        = some ([DrawOp.fillScreen 0, DrawOp.fillRect 1 2 3 4 5, DrawOp.drawRect 11 12 13 14 15],
            []) :=
  ⟨by decide,
   (renderBinary_unknown_type 1 1 0
      [{ type := 1, x := 1, y := 2, w := 3, h := 4, color := 5, name := [] }]
      [{ type := 2, x := 11, y := 12, w := 13, h := 14, color := 15, name := [] }]
      { type := 9, x := 6, y := 7, w := 8, h := 9, color := 10, name := asc "n" } []
      (by decide) (by decide) (by decide) (by decide) (by decide) (by decide) (by decide)).2.2.1⟩

/-- C10: whatever length byte `L` (0..255) a record declares, the label handed to the
dispatcher is the first `min(L, 31)` name bytes of the stream, never more than 31 bytes, and
the terminator index is `min(L, 31)`, at most 31 and inside the 32-byte buffer (a declared
length of 40 gives a 31-byte label). -/
theorem readElement_label_bound (t x0 x1 y0 y1 w0 w1 h0 h1 c0 c1 L : Byte) (tail : List Byte)
    (hlen : min L.val 31 ≤ tail.length) :
    readElement (t :: x0 :: x1 :: y0 :: y1 :: w0 :: w1 :: h0 :: h1 :: c0 :: c1 :: L :: tail)
        = some ({ type := t.val,
                  x := toInt16 (x0.val + 256 * x1.val), y := toInt16 (y0.val + 256 * y1.val),
                  w := toInt16 (w0.val + 256 * w1.val), h := toInt16 (h0.val + 256 * h1.val),
                  color := c0.val + 256 * c1.val,
                  nameLen := min L.val 31, name := tail.take (min L.val 31) },
                tail.drop (min L.val 31))
      ∧ (tail.take (min L.val 31)).length = min L.val 31
      ∧ (tail.take (min L.val 31)).length ≤ 31
      ∧ min L.val 31 ≤ 31
      ∧ min L.val 31 < NAME_BUF := by
  have hmin : (if L.val > 31 then 31 else L.val) = min L.val 31 := by
    split_ifs with h <;> omega
  have hbuf : min L.val 31 < NAME_BUF := by unfold NAME_BUF; omega
  refine ⟨?_, ?_, ?_, by omega, hbuf⟩
  · simp only [readElement, readByte, read16, hmin, readBytes, hlen, if_true, hbuf]
  · rw [List.length_take]; omega
  · rw [List.length_take]; omega

theorem readElement_label_bound_witness :
    min (40 : Byte).val 31 ≤ (List.replicate 40 (65 : Byte)).length ∧
      (readElement (7 :: 1 :: 0 :: 2 :: 0 :: 3 :: 0 :: 16 :: 0 :: 5 :: 0 :: 40 ::
          List.replicate 40 65)).map (fun p => (p.1.draw, p.2))
        = some ([DrawOp.setTextColor 5, DrawOp.setTextSize 2,
                  DrawOp.drawString (some (List.replicate 31 65)) 1 2],
                List.replicate 9 65) :=
  ⟨by decide,
   (congrArg (Option.map (fun p => (p.1.draw, p.2)))
      (readElement_label_bound 7 1 0 2 0 3 0 16 0 5 0 40 (List.replicate 40 65)
        (by decide)).1).trans (by decide)⟩


/-! ## Parity of the two forms -/

theorem wrapInt_of_range (z : Int) (h1 : -2147483648 ≤ z) (h2 : z < 2147483648) :
    wrapInt z = z := by
  unfold wrapInt
  omega

theorem tdiv_two_bounds (w : Int) (hw : inInt16 w) :
    -16384 ≤ Int.tdiv w 2 ∧ Int.tdiv w 2 ≤ 16383 := by
  unfold inInt16 at hw
  rcases Int.le_total 0 w with h | h
  · rw [Int.tdiv_eq_ediv h (by decide)]
    omega
  · have e : Int.tdiv w 2 = -((-w) / 2) := by
      rw [← Int.tdiv_eq_ediv (by omega) (by decide), Int.neg_tdiv, Int.neg_neg]
    rw [e]
    omega

theorem hexTo565_lt (hex : Option CStr) : hexTo565 hex < 65536 := by
  unfold hexTo565
  split
  · decide
  · split
    · decide
    · exact Nat.mod_lt _ (by decide)

theorem typeTag_cases {t : CStr} {tag : Byte} (h : typeTag t = some tag) :
    (t = asc "fillRect" ∧ tag = 1) ∨ (t = asc "drawRect" ∧ tag = 2) ∨
    (t = asc "fillRoundRect" ∧ tag = 3) ∨ (t = asc "fillCircle" ∧ tag = 4) ∨
    (t = asc "drawCircle" ∧ tag = 5) ∨ (t = asc "fillTriangle" ∧ tag = 6) ∨
    (t = asc "drawString" ∧ tag = 7) ∨ (t = asc "drawCentreString" ∧ tag = 8) := by
  unfold typeTag at h
  split_ifs at h with h1 h2 h3 h4 h5 h6 h7 h8 <;> simp_all


theorem renderElement_encodable (fs : CStr → Bool) (el : Element) (h : el.encodable) :
    renderElement fs el = some el.toRecord.draw := by
  obtain ⟨ht, hx, hy, hw, hh, hn⟩ := h
  cases hty : el.type with
  | none => simp [hty] at ht
  | some t =>
    cases htag : typeTag t with
    | none => simp [hty, htag] at ht
    | some tag =>
      cases hname : el.name with
      | none => simp [hname] at hn
      | some n =>
        have b1 := tdiv_two_bounds el.w hw
        have b2 := tdiv_two_bounds el.h hh
        unfold inInt16 at hx hy hw hh
        have e1 : wrapInt (el.x + Int.tdiv el.w 2) = el.x + Int.tdiv el.w 2 :=
          wrapInt_of_range _ (by omega) (by omega)
        have e2 : wrapInt (el.y + Int.tdiv el.h 2) = el.y + Int.tdiv el.h 2 :=
          wrapInt_of_range _ (by omega) (by omega)
        have e3 : wrapInt (el.y + el.h) = el.y + el.h :=
          wrapInt_of_range _ (by omega) (by omega)
        have e4 : wrapInt (el.x + el.w) = el.x + el.w :=
          wrapInt_of_range _ (by omega) (by omega)
        rcases typeTag_cases htag with ⟨e, g⟩ | ⟨e, g⟩ | ⟨e, g⟩ | ⟨e, g⟩ | ⟨e, g⟩ | ⟨e, g⟩ |
          ⟨e, g⟩ | ⟨e, g⟩
        all_goals
          subst e g
          simp +decide [renderElement, hty, hname, Element.toRecord, htag, Record.draw,
            drawBinaryElement, e1, e2, e3, e4]


theorem toRecord_wf (el : Element) (h : el.encodable) : el.toRecord.wf := by
  obtain ⟨-, hx, hy, hw, hh, hn⟩ := h
  refine ⟨hx, hy, hw, hh, hexTo565_lt _, ?_⟩
  cases hname : el.name with
  | none => simp [hname] at hn
  | some n =>
    simp only [hname, Option.map_some', Option.any_some, decide_eq_true_eq] at hn
    simpa [Element.toRecord, hname] using hn

theorem elementDraws_encodable (fs : CStr → Bool) (els : List Element)
    (h : ∀ el ∈ els, el.encodable) :
    elementDraws fs els = some ((els.map (fun el => el.toRecord.draw)).flatten) := by
  induction els with
  | nil => rfl
  | cons el els ih =>
    have h1 := renderElement_encodable fs el (h el (List.mem_cons_self _ _))
    have h2 := ih (fun t ht => h t (List.mem_cons_of_mem _ ht))
    simp [elementDraws, h1, h2]

/-- C1: for a screen with a background colour, no background asset and elements of the eight
shape/text types whose boxes are in signed 16-bit range and whose names are at most 31 bytes
long, `renderProject` on a document that selects the screen and `renderBinary` on the binary
layout of the same data (tags 1..8, colours `hexTo565` of the colour strings, as many elements
as the 2-byte count can hold) emit the same draw operations with the same arguments. -/
theorem render_parity (fs : CStr → Bool) (doc : Project) (a : CStr) (s : Screen)
    (c : Option CStr) (version numScreens : Byte) (rest : List Byte)
    (ha : doc.activeScreenId = some a) (hid : ∀ t ∈ doc.screens, t.id ≠ none)
    (hsel : selectScreen a doc.screens = some s)
    (hbg : s.backgroundColor = some c) (hasset : s.backgroundAsset = none)
    (hel : ∀ el ∈ s.elements, el.encodable) (hcount : s.elements.length < 65536)
    (hs : 1 ≤ numScreens.val) :
    renderProject fs doc
        = (renderBinary (encodeStream version numScreens (hexTo565 c)
            (s.elements.map Element.toRecord) ++ rest)).map Prod.fst
      ∧ renderProject fs doc
        = some (DrawOp.fillScreen (hexTo565 c)
            :: (s.elements.map (fun el => el.toRecord.draw)).flatten) := by
  have hdoc : renderProject fs doc
      = some (DrawOp.fillScreen (hexTo565 c)
          :: (s.elements.map (fun el => el.toRecord.draw)).flatten) := by
    unfold renderProject
    rw [ha]
    simp only
    rw [renderProjectLoop_eq fs a doc.screens hid, hsel]
    simp only
    rw [renderScreen_eq, elementDraws_encodable fs _ hel]
    simp [backgroundFill, backgroundBlit, hbg, hasset]
  have hwf : ∀ r ∈ s.elements.map Element.toRecord, r.wf := by
    intro r hr
    obtain ⟨el, hmem, rfl⟩ := List.mem_map.mp hr
    exact toRecord_wf el (hel el hmem)
  have hlen : (s.elements.map Element.toRecord).length < 65536 := by
    rw [List.length_map]; exact hcount
  have hbin := renderBinary_encode version numScreens (hexTo565 c)
    (s.elements.map Element.toRecord) rest hs (hexTo565_lt c) hlen hwf
  refine ⟨?_, hdoc⟩
  rw [hdoc, hbin]
  simp [List.map_map, Function.comp_def]

theorem render_parity_witness :
    (sampleProject.activeScreenId = some (asc "main") ∧
      (∀ t ∈ sampleProject.screens, t.id ≠ none) ∧
      selectScreen (asc "main") sampleProject.screens = some sampleScreen ∧
      sampleScreen.backgroundColor = some (some (asc "#102030")) ∧
      sampleScreen.backgroundAsset = none ∧
      (∀ el ∈ sampleScreen.elements, el.encodable) ∧
      sampleScreen.elements.length < 65536 ∧ 1 ≤ (1 : Byte).val) ∧
    renderProject (fun _ => true) sampleProject
      = (renderBinary (encodeStream 1 1 (hexTo565 (some (asc "#102030")))
          (sampleScreen.elements.map Element.toRecord) ++ [])).map Prod.fst :=
  ⟨by decide,
   (render_parity (fun _ => true) sampleProject (asc "main") sampleScreen
      (some (asc "#102030")) 1 1 [] (by decide) (by decide) (by decide) (by decide)
      (by decide) (by decide) (by decide) (by decide)).1⟩

/-! ## The header of the binary form -/

theorem drawBinaryElement_no_fill (t : Nat) (x y w h : Int) (c : Nat) (n : CStr) :
    (drawBinaryElement t x y w h c n).countP DrawOp.isFillScreen = 0 := by
  unfold drawBinaryElement
  split <;> rfl

theorem records_no_fill (recs : List Record) :
    ((recs.map Record.draw).flatten).countP DrawOp.isFillScreen = 0 := by
  induction recs with
  | nil => rfl
  | cons r recs ih =>
    simp only [List.map_cons, List.flatten_cons, List.countP_append, ih, Record.draw,
      drawBinaryElement_no_fill]

/-- C11 (the code at the failing input): the first record declares a name of 40 bytes; the
decoder takes 31 of them and then reads the second record from the 9 name bytes left over, so
the `fillRect` of the second record is never drawn and the run ends 9 bytes before the end of
the stream. -/
theorem renderBinary_oversized_name :
    renderBinary oversizedNameStream =
      some ([DrawOp.fillScreen 0, DrawOp.setTextColor 5, DrawOp.setTextSize 2,
              DrawOp.drawString (some (List.replicate 31 65)) 1 2],
            [2, 0, 3, 0, 4, 0, 5, 0, 0]) := by
  decide

/-- C12: the end-to-end example emits exactly two operations, `fillScreen(0x0000)` and then
`fillRect(10, 10, 20, 20, 0xF800)`, whatever the storage holds. -/
theorem renderProject_example (fs : CStr → Bool) :
    renderProject fs exampleProject
      = some [DrawOp.fillScreen 0x0000, DrawOp.fillRect 10 10 20 20 0xF800] := by
  rfl

/-- C13: on a well-formed stream with a screen count of at least 1 the log is the log of the
stream with the count set to 1 and everything after the first screen block removed, and it
holds exactly one `fillScreen`, whatever the count says. -/
theorem renderBinary_first_screen (version numScreens : Byte) (bgColor : Nat)
    (recs : List Record) (rest : List Byte) (hs : 1 ≤ numScreens.val) (hbg : bgColor < 65536)
    (hn : recs.length < 65536) (hr : ∀ r ∈ recs, r.wf) :
    (renderBinary (encodeStream version numScreens bgColor recs ++ rest)).map Prod.fst
        = (renderBinary (encodeStream version 1 bgColor recs)).map Prod.fst
      ∧ (renderBinary (encodeStream version numScreens bgColor recs ++ rest)).map Prod.fst
        = some (DrawOp.fillScreen bgColor :: (recs.map Record.draw).flatten)
      ∧ (DrawOp.fillScreen bgColor :: (recs.map Record.draw).flatten).countP
          DrawOp.isFillScreen = 1 := by
  have e1 := renderBinary_encode version numScreens bgColor recs rest hs hbg hn hr
  have e2 := renderBinary_encode version 1 bgColor recs [] (by decide) hbg hn hr
  rw [List.append_nil] at e2
  refine ⟨by rw [e1, e2]; rfl, by rw [e1]; rfl, ?_⟩
  rw [List.countP_cons, records_no_fill]
  rfl

theorem renderBinary_first_screen_witness :
    (1 ≤ (3 : Byte).val ∧ 0x001F < 65536 ∧
      ([{ type := 2, x := 1, y := 2, w := 3, h := 4, color := 5, name := [] }]
        : List Record).length < 65536) ∧
    (renderBinary (encodeStream 1 3 0x001F
        [{ type := 2, x := 1, y := 2, w := 3, h := 4, color := 5, name := [] }]
        ++ [0xE0, 0x07, 1, 0, 1, 9, 0, 9, 0, 9, 0, 9, 0, 0xFF, 0xFF, 0])).map Prod.fst
      = some [DrawOp.fillScreen 0x001F, DrawOp.drawRect 1 2 3 4 5] :=
  ⟨by decide,
   (renderBinary_first_screen 1 3 0x001F
      [{ type := 2, x := 1, y := 2, w := 3, h := 4, color := 5, name := [] }]
      [0xE0, 0x07, 1, 0, 1, 9, 0, 9, 0, 9, 0, 9, 0, 0xFF, 0xFF, 0]
      (by decide) (by decide) (by decide) (by decide)).2.1⟩

/-- C18: two streams that differ only in the version byte (offset 4) give the same log of
draw operations; when the magic is accepted the rest of the run is the same as well. -/
theorem renderBinary_version_ignored (b0 b1 b2 b3 v1 v2 : Byte) (rest : List Byte) :
    (renderBinary (b0 :: b1 :: b2 :: b3 :: v1 :: rest)).map Prod.fst
        = (renderBinary (b0 :: b1 :: b2 :: b3 :: v2 :: rest)).map Prod.fst
      ∧ renderBinaryBody (v1 :: rest) = renderBinaryBody (v2 :: rest) := by
  have hbody : renderBinaryBody (v1 :: rest) = renderBinaryBody (v2 :: rest) := by
    simp [renderBinaryBody, readByte]
  refine ⟨?_, hbody⟩
  by_cases hm : strcmp [b0, b1, b2, b3] (asc "P240") = 0
  · simp [renderBinary, readBytes, hm, hbody]
  · simp [renderBinary, readBytes, hm]

/-- C20: a stream with the magic `P240` and a screen count of 0 emits no operation, no
background fill either, and leaves everything after the 6-byte header unread, whatever the
version byte and the bytes that follow are. -/
theorem renderBinary_no_screens (version : Byte) (rest : List Byte) :
    renderBinary (asc "P240" ++ version :: 0 :: rest) = some ([], rest) := by
  have hcmp : strcmp [80, 50, 52, 48] [80, 50, 52, 48] = 0 := by decide
  simp [renderBinary, readBytes, asc_P240, hcmp, renderBinaryBody, readByte]

/-! ## The two dispatchers -/

theorem tdiv_eq_truncDiv (a : Int) (b : Nat) : Int.tdiv a (b : Int) = truncDiv a b := by
  unfold truncDiv
  split_ifs with h
  · exact Int.tdiv_eq_ediv h (Int.ofNat_nonneg b)
  · rw [← Int.tdiv_eq_ediv (by omega) (Int.ofNat_nonneg b), Int.neg_tdiv, Int.neg_neg]

theorem tdiv_two (a : Int) : Int.tdiv a 2 = truncDiv a 2 := tdiv_eq_truncDiv a 2

theorem tdiv_eight (a : Int) : Int.tdiv a 8 = truncDiv a 8 := tdiv_eq_truncDiv a 8

theorem cstr_typeName {t : CStr} {tag : Byte} (h : typeTag t = some tag) : cstr t = t := by
  rcases typeTag_cases h with ⟨e, -⟩ | ⟨e, -⟩ | ⟨e, -⟩ | ⟨e, -⟩ | ⟨e, -⟩ | ⟨e, -⟩ | ⟨e, -⟩ |
    ⟨e, -⟩ <;> subst e <;> decide

/-- The document dispatcher on one of the eight types, with a name and sums that do not
wrap, logs what the binary dispatcher logs for the tag of the type. -/
theorem renderElement_named (fs : CStr → Bool) (el : Element) (t : CStr) (tag : Byte)
    (n : CStr) (hty : el.type = some t) (htag : typeTag t = some tag) (hname : el.name = some n)
    (e1 : wrapInt (el.x + Int.tdiv el.w 2) = el.x + Int.tdiv el.w 2)
    (e2 : wrapInt (el.y + Int.tdiv el.h 2) = el.y + Int.tdiv el.h 2)
    (e3 : wrapInt (el.y + el.h) = el.y + el.h)
    (e4 : wrapInt (el.x + el.w) = el.x + el.w) :
    renderElement fs el
      = some (drawBinaryElement tag.val el.x el.y el.w el.h (hexTo565 el.color) n) := by
  rcases typeTag_cases htag with ⟨e, g⟩ | ⟨e, g⟩ | ⟨e, g⟩ | ⟨e, g⟩ | ⟨e, g⟩ | ⟨e, g⟩ |
    ⟨e, g⟩ | ⟨e, g⟩
  all_goals
    subst e g
    simp +decide [renderElement, hty, hname, drawBinaryElement, e1, e2, e3, e4]

/-- The same for the six shapes, which do not look at the name. -/
theorem renderElement_shape (fs : CStr → Bool) (el : Element) (t : CStr) (tag : Byte)
    (n : CStr) (hty : el.type = some t) (htag : typeTag t = some tag) (hshape : tag.val ≤ 6)
    (e1 : wrapInt (el.x + Int.tdiv el.w 2) = el.x + Int.tdiv el.w 2)
    (e2 : wrapInt (el.y + Int.tdiv el.h 2) = el.y + Int.tdiv el.h 2)
    (e3 : wrapInt (el.y + el.h) = el.y + el.h)
    (e4 : wrapInt (el.x + el.w) = el.x + el.w) :
    renderElement fs el
      = some (drawBinaryElement tag.val el.x el.y el.w el.h (hexTo565 el.color) n) := by
  rcases typeTag_cases htag with ⟨e, g⟩ | ⟨e, g⟩ | ⟨e, g⟩ | ⟨e, g⟩ | ⟨e, g⟩ | ⟨e, g⟩ |
    ⟨e, g⟩ | ⟨e, g⟩
  all_goals
    subst e g
    first
      | exact absurd hshape (by decide)
      | simp +decide [renderElement, hty, drawBinaryElement, e1, e2, e3, e4]

theorem renderElement_length (fs : CStr → Bool) (el : Element) (t : CStr) (tag : Byte)
    (hty : el.type = some t) (htag : typeTag t = some tag) :
    (renderElement fs el).map List.length = some (opCount tag.val) := by
  rcases typeTag_cases htag with ⟨e, g⟩ | ⟨e, g⟩ | ⟨e, g⟩ | ⟨e, g⟩ | ⟨e, g⟩ | ⟨e, g⟩ |
    ⟨e, g⟩ | ⟨e, g⟩
  all_goals
    subst e g
    simp +decide [renderElement, hty, opCount]

theorem drawBinaryElement_length (k : Nat) (h1 : 1 ≤ k) (h8 : k ≤ 8) (x y w h : Int) (c : Nat)
    (name : CStr) : (drawBinaryElement k x y w h c name).length = opCount k := by
  have hk : k = 1 ∨ k = 2 ∨ k = 3 ∨ k = 4 ∨ k = 5 ∨ k = 6 ∨ k = 7 ∨ k = 8 := by omega
  rcases hk with e | e | e | e | e | e | e | e <;> subst e <;> rfl

theorem strcmp_typeName_ne {t name : CStr} {tag : Byte} (hname : typeTag name = some tag)
    (h : typeTag (cstr t) = none) : strcmp t name ≠ 0 := by
  intro h0
  have e := (strcmp_eq_zero_iff t name).mp h0
  rw [cstr_typeName hname] at e
  rw [e, hname] at h
  exact Option.noConfusion h

theorem drawAsset_elementBlit (fs : CStr → Bool) (el : Element) :
    (match el.asset with
      | some assetName => some (drawAsset fs assetName el.x el.y)
      | none => some []) = some (elementBlit fs el) := by
  unfold elementBlit
  cases el.asset with
  | none => rfl
  | some v =>
    cases v with
    | none => rfl
    | some a =>
      by_cases hl : cstr a = []
      · have : ¬ strlen a > 0 := fun h => (strlen_pos_iff a).mp h hl
        simp [drawAsset, this, hl]
      · have : strlen a > 0 := (strlen_pos_iff a).mpr hl
        by_cases hf : fs (asc "/" ++ cstr a ++ asc ".jpg") = true
        · simp [drawAsset, this, hl, jpgPath, hf]
        · simp [drawAsset, this, hl, jpgPath, hf]

theorem renderElement_unrecognised (fs : CStr → Bool) (el : Element) (t : CStr)
    (hty : el.type = some t) (hnone : typeTag (cstr t) = none) :
    renderElement fs el = some (elementBlit fs el) := by
  have h1 := strcmp_typeName_ne (by decide : typeTag (asc "fillRect") = some 1) hnone
  have h2 := strcmp_typeName_ne (by decide : typeTag (asc "drawRect") = some 2) hnone
  have h3 := strcmp_typeName_ne (by decide : typeTag (asc "fillRoundRect") = some 3) hnone
  have h4 := strcmp_typeName_ne (by decide : typeTag (asc "fillCircle") = some 4) hnone
  have h5 := strcmp_typeName_ne (by decide : typeTag (asc "drawCircle") = some 5) hnone
  have h6 := strcmp_typeName_ne (by decide : typeTag (asc "fillTriangle") = some 6) hnone
  have h7 := strcmp_typeName_ne (by decide : typeTag (asc "drawString") = some 7) hnone
  have h8 := strcmp_typeName_ne (by decide : typeTag (asc "drawCentreString") = some 8) hnone
  rw [← drawAsset_elementBlit]
  simp only [renderElement, hty, h1, h2, h3, h4, h5, h6, h7, h8, if_false]

/-- C14: an element whose type string is present but is none of the eight recognised names
emits one blit of `/<asset>.jpg` at its own `(x, y)` exactly when it has an `asset` key whose
value is a non-empty name and the path exists in storage; otherwise it emits nothing; either
way the elements after it are rendered. -/
theorem renderElement_image (fs : CStr → Bool) (el : Element) (t : CStr)
    (hty : el.type = some t) (hnone : typeTag (cstr t) = none) :
    renderElement fs el = some (elementBlit fs el)
      ∧ (elementBlit fs el).length ≤ 1
      ∧ ∀ els : List Element,
          elementDraws fs (el :: els)
            = (elementDraws fs els).map (fun ds => elementBlit fs el ++ ds) := by
  have h := renderElement_unrecognised fs el t hty hnone
  refine ⟨h, ?_, ?_⟩
  · unfold elementBlit
    split
    · split <;> simp
    · simp
  · intro els
    cases h2 : elementDraws fs els with
    | none => simp [elementDraws, h, h2]
    | some b => simp [elementDraws, h, h2]

theorem renderElement_image_witness :
    (({ type := some (asc "image"), name := none, x := 4, y := 9, w := 0, h := 0, color := none,
        asset := some (some (asc "logo")) } : Element).type = some (asc "image") ∧
      typeTag (cstr (asc "image")) = none) ∧
    renderElement (fun p => p == asc "/logo.jpg")
        { type := some (asc "image"), name := none, x := 4, y := 9, w := 0, h := 0,
          color := none, asset := some (some (asc "logo")) }
      = some [DrawOp.drawJpgFile (asc "/logo.jpg") 4 9] :=
  ⟨by decide,
   (renderElement_image (fun p => p == asc "/logo.jpg")
      { type := some (asc "image"), name := none, x := 4, y := 9, w := 0, h := 0, color := none,
        asset := some (some (asc "logo")) } (asc "image") (by decide) (by decide)).1.trans
      (by decide)⟩

/-- C15: for each tag 1..8 and its type string, for every box in signed 16-bit range, every
name and every colour string, `drawBinaryElement` on the tag, the box, the packed colour of the
string and the name emits the operations, with the arguments, that `renderElement` emits on
the document element with that type string, box, name and colour string. -/
theorem dispatcher_parity (fs : CStr → Bool) (el : Element) (t : CStr) (tag : Byte) (n : CStr)
    (colour : Nat) (hty : el.type = some t) (htag : typeTag t = some tag)
    (hx : inInt16 el.x) (hy : inInt16 el.y) (hw : inInt16 el.w) (hh : inInt16 el.h)
    (hname : el.name = some n) (hcol : hexTo565 el.color = colour) :
    renderElement fs el = some (drawBinaryElement tag.val el.x el.y el.w el.h colour n)
      ∧ 1 ≤ tag.val ∧ tag.val ≤ 8 := by
  have b1 := tdiv_two_bounds el.w hw
  have b2 := tdiv_two_bounds el.h hh
  unfold inInt16 at hx hy hw hh
  refine ⟨?_, ?_⟩
  · rw [← hcol]
    exact renderElement_named fs el t tag n hty htag hname
      (wrapInt_of_range _ (by omega) (by omega)) (wrapInt_of_range _ (by omega) (by omega))
      (wrapInt_of_range _ (by omega) (by omega)) (wrapInt_of_range _ (by omega) (by omega))
  · rcases typeTag_cases htag with ⟨-, g⟩ | ⟨-, g⟩ | ⟨-, g⟩ | ⟨-, g⟩ | ⟨-, g⟩ | ⟨-, g⟩ |
      ⟨-, g⟩ | ⟨-, g⟩ <;> subst g <;> decide

theorem dispatcher_parity_witness :
    (typeTag (asc "drawCentreString") = some 8 ∧ inInt16 (-20) ∧ inInt16 7 ∧ inInt16 (-31) ∧
      inInt16 (-17) ∧ hexTo565 (some (asc "#0F0")) = 0x07E0) ∧
    renderElement (fun _ => false)
        { type := some (asc "drawCentreString"), name := some (asc "ok"), x := -20, y := 7,
          w := -31, h := -17, color := some (asc "#0F0"), asset := none }
      = some (drawBinaryElement 8 (-20) 7 (-31) (-17) 0x07E0 (asc "ok")) :=
  ⟨by decide,
   (dispatcher_parity (fun _ => false)
      { type := some (asc "drawCentreString"), name := some (asc "ok"), x := -20, y := 7,
        w := -31, h := -17, color := some (asc "#0F0"), asset := none }
      (asc "drawCentreString") 8 (asc "ok") 0x07E0 rfl (by decide) (by decide) (by decide)
      (by decide) (by decide) rfl (by decide)).1⟩

/-- C16: the dispatch table of `drawBinaryElement`, with division truncating toward zero:
tags 1 to 3 the box as given (corner radius 8 for tag 3), tags 4 and 5 the circle of centre
`(x + w/2, y + h/2)` and radius `min(w,h)/2`, tag 6 the triangle `(x + w/2, y)`, `(x, y + h)`,
`(x + w, y + h)`, tags 7 and 8 the text colour, the text scale `max(1, h/8)` and the string at
`(x, y)`, centred at `(x + w/2, y)` with datum 2 for tag 8; the text scale is at least 1 for
every `h`. -/
theorem drawBinaryElement_table (x y w h : Int) (c : Nat) (s : CStr) :
    drawBinaryElement 1 x y w h c s = [DrawOp.fillRect x y w h c]
      ∧ drawBinaryElement 2 x y w h c s = [DrawOp.drawRect x y w h c]
      ∧ drawBinaryElement 3 x y w h c s = [DrawOp.fillRoundRect x y w h 8 c]
      ∧ drawBinaryElement 4 x y w h c s
          = [DrawOp.fillCircle (x + truncDiv w 2) (y + truncDiv h 2) (truncDiv (min w h) 2) c]
      ∧ drawBinaryElement 5 x y w h c s
          = [DrawOp.drawCircle (x + truncDiv w 2) (y + truncDiv h 2) (truncDiv (min w h) 2) c]
      ∧ drawBinaryElement 6 x y w h c s
          = [DrawOp.fillTriangle (x + truncDiv w 2) y x (y + h) (x + w) (y + h) c]
      ∧ drawBinaryElement 7 x y w h c s
          = [DrawOp.setTextColor c, DrawOp.setTextSize (max 1 (truncDiv h 8)),
              DrawOp.drawString (some s) x y]
      ∧ drawBinaryElement 8 x y w h c s
          = [DrawOp.setTextColor c, DrawOp.setTextSize (max 1 (truncDiv h 8)),
              DrawOp.drawCentreString (some s) (x + truncDiv w 2) y 2]
      ∧ 1 ≤ max 1 (truncDiv h 8) := by
  simp only [drawBinaryElement, tdiv_two, tdiv_eight, true_and]
  exact le_max_left 1 _

/-- C17: for every box with `w ≥ 0` and `h ≥ 0` the circle of `fillCircle` / `drawCircle`,
centre `(x + w/2, y + h/2)` and radius `min(w,h)/2`, lies inside the box, and so do the three
vertices of `fillTriangle`. The binary dispatcher draws these for all integers; the document
dispatcher draws the same whenever the corners of the box are values of an `int`. -/
theorem shapes_inscribed (x y w h : Int) (c : Nat) (s : CStr) (hw : 0 ≤ w) (hh : 0 ≤ h) :
    (drawBinaryElement 4 x y w h c s
          = [DrawOp.fillCircle (x + w / 2) (y + h / 2) (min w h / 2) c]
        ∧ drawBinaryElement 5 x y w h c s
          = [DrawOp.drawCircle (x + w / 2) (y + h / 2) (min w h / 2) c]
        ∧ x ≤ (x + w / 2) - min w h / 2 ∧ (x + w / 2) + min w h / 2 ≤ x + w
        ∧ y ≤ (y + h / 2) - min w h / 2 ∧ (y + h / 2) + min w h / 2 ≤ y + h)
      ∧ (drawBinaryElement 6 x y w h c s
          = [DrawOp.fillTriangle (x + w / 2) y x (y + h) (x + w) (y + h) c]
        ∧ (x ≤ x + w / 2 ∧ x + w / 2 ≤ x + w ∧ y ≤ y ∧ y ≤ y + h)
        ∧ (x ≤ x ∧ x ≤ x + w ∧ y ≤ y + h ∧ y + h ≤ y + h)
        ∧ (x ≤ x + w ∧ x + w ≤ x + w ∧ y ≤ y + h ∧ y + h ≤ y + h))
      ∧ ∀ (fs : CStr → Bool) (el : Element) (t : CStr) (tag : Byte),
          el.type = some t → typeTag t = some tag → 4 ≤ tag.val → tag.val ≤ 6 →
          el.x = x → el.y = y → el.w = w → el.h = h →
          inInt32 x → inInt32 y → inInt32 (x + w) → inInt32 (y + h) →
          renderElement fs el
            = some (drawBinaryElement tag.val x y w h (hexTo565 el.color) s) := by
  have hm : 0 ≤ min w h := le_min hw hh
  have d1 : Int.tdiv w 2 = w / 2 := Int.tdiv_eq_ediv hw (by decide)
  have d2 : Int.tdiv h 2 = h / 2 := Int.tdiv_eq_ediv hh (by decide)
  have d3 : Int.tdiv (min w h) 2 = min w h / 2 := Int.tdiv_eq_ediv hm (by decide)
  have m1 : min w h ≤ w := min_le_left w h
  have m2 : min w h ≤ h := min_le_right w h
  refine ⟨⟨?_, ?_, ?_, ?_, ?_, ?_⟩, ⟨?_, ?_, ?_, ?_⟩, ?_⟩
  · simp only [drawBinaryElement, d1, d2, d3]
  · simp only [drawBinaryElement, d1, d2, d3]
  · omega
  · omega
  · omega
  · omega
  · simp only [drawBinaryElement, d1]
  · omega
  · omega
  · omega
  · intro fs el t tag hty htag _ h6 ex ey ew eh hx hy hxw hyh
    subst ex ey ew eh
    unfold inInt32 at hx hy hxw hyh
    exact renderElement_shape fs el t tag s hty htag h6
      (wrapInt_of_range _ (by omega) (by omega)) (wrapInt_of_range _ (by omega) (by omega))
      (wrapInt_of_range _ (by omega) (by omega)) (wrapInt_of_range _ (by omega) (by omega))

theorem shapes_inscribed_witness :
    ((0 : Int) ≤ 21 ∧ (0 : Int) ≤ 8) ∧
      drawBinaryElement 4 (-3) 5 21 8 0xF800 [] = [DrawOp.fillCircle 7 9 4 0xF800] :=
  ⟨by decide, (shapes_inscribed (-3) 5 21 8 0xF800 [] (by decide) (by decide)).1.1⟩

/-- C19 (as stated, it fails): the dispatch of a `drawString` record performs three
operations on the surface, not one. -/
theorem text_dispatch_three_ops :
    drawBinaryElement 7 10 20 30 16 0xFFFF (asc "A")
        = [DrawOp.setTextColor 0xFFFF, DrawOp.setTextSize 2,
            DrawOp.drawString (some (asc "A")) 10 20]
      ∧ (drawBinaryElement 7 10 20 30 16 0xFFFF (asc "A")).length ≠ 1
      ∧ (renderElement (fun _ => false)
          { type := some (asc "drawString"), name := some (asc "A"), x := 10, y := 20, w := 30,
            h := 16, color := some (asc "#FFF"), asset := none }).map List.length ≠ some 1 := by
  decide

theorem renderElement_primitives (fs : CStr → Bool) (el : Element) (t : CStr) (tag : Byte)
    (hty : el.type = some t) (htag : typeTag t = some tag) :
    (renderElement fs el).map (List.map DrawOp.primitive) = some (primitivesOfTag tag.val) := by
  rcases typeTag_cases htag with ⟨e, g⟩ | ⟨e, g⟩ | ⟨e, g⟩ | ⟨e, g⟩ | ⟨e, g⟩ | ⟨e, g⟩ |
    ⟨e, g⟩ | ⟨e, g⟩
  all_goals
    subst e g
    simp +decide [renderElement, hty, primitivesOfTag, DrawOp.primitive]

theorem drawBinaryElement_primitives (k : Nat) (h1 : 1 ≤ k) (h8 : k ≤ 8) (x y w h : Int)
    (c : Nat) (name : CStr) :
    (drawBinaryElement k x y w h c name).map DrawOp.primitive = primitivesOfTag k := by
  have hk : k = 1 ∨ k = 2 ∨ k = 3 ∨ k = 4 ∨ k = 5 ∨ k = 6 ∨ k = 7 ∨ k = 8 := by omega
  rcases hk with e | e | e | e | e | e | e | e <;> subst e <;> rfl

theorem primitivesOfTag_length (k : Nat) (h1 : 1 ≤ k) (h8 : k ≤ 8) :
    (primitivesOfTag k).length = opCount k := by
  have hk : k = 1 ∨ k = 2 ∨ k = 3 ∨ k = 4 ∨ k = 5 ∨ k = 6 ∨ k = 7 ∨ k = 8 := by omega
  rcases hk with e | e | e | e | e | e | e | e <;> subst e <;> rfl

/-- The `drawString` branch of the document dispatcher, in full. -/
theorem renderElement_drawString (fs : CStr → Bool) (el : Element) (t : CStr) (tag : Byte)
    (hty : el.type = some t) (htag : typeTag t = some tag) (h7 : tag.val = 7) :
    renderElement fs el
      = some [DrawOp.setTextColor (hexTo565 el.color),
              DrawOp.setTextSize (max 1 (truncDiv el.h 8)),
              DrawOp.drawString el.name el.x el.y] := by
  rcases typeTag_cases htag with ⟨e, g⟩ | ⟨e, g⟩ | ⟨e, g⟩ | ⟨e, g⟩ | ⟨e, g⟩ | ⟨e, g⟩ |
    ⟨e, g⟩ | ⟨e, g⟩
  all_goals
    subst e g
    first
      | exact absurd h7 (by decide)
      | simp +decide [renderElement, hty, tdiv_eight]

/-- The `drawCentreString` branch of the document dispatcher, in full. -/
theorem renderElement_drawCentreString (fs : CStr → Bool) (el : Element) (t : CStr)
    (tag : Byte) (hty : el.type = some t) (htag : typeTag t = some tag) (h8 : tag.val = 8) :
    renderElement fs el
      = some [DrawOp.setTextColor (hexTo565 el.color),
              DrawOp.setTextSize (max 1 (truncDiv el.h 8)),
              DrawOp.drawCentreString el.name (wrapInt (el.x + truncDiv el.w 2)) el.y 2] := by
  rcases typeTag_cases htag with ⟨e, g⟩ | ⟨e, g⟩ | ⟨e, g⟩ | ⟨e, g⟩ | ⟨e, g⟩ | ⟨e, g⟩ |
    ⟨e, g⟩ | ⟨e, g⟩
  all_goals
    subst e g
    first
      | exact absurd h8 (by decide)
      | simp +decide [renderElement, hty, tdiv_eight, tdiv_two]

/-- C19 (amended): for each of the eight recognised types, and all geometry, colour and text,
both dispatchers perform exactly one operation for the six shapes, the primitive of the type,
and exactly three for the two text types: text colour, text scale, then the text draw. The
three operations of a text type are given in full, with their arguments, for the document
dispatcher and for the binary dispatcher. -/
theorem dispatch_op_count (fs : CStr → Bool) (el : Element) (t : CStr) (tag : Byte)
    (hty : el.type = some t) (htag : typeTag t = some tag)
    (k : Nat) (h1 : 1 ≤ k) (h8 : k ≤ 8) (x y w h : Int) (c : Nat) (name : CStr) :
    (renderElement fs el).map (List.map DrawOp.primitive) = some (primitivesOfTag tag.val)
      ∧ (renderElement fs el).map List.length = some (opCount tag.val)
      ∧ (drawBinaryElement k x y w h c name).map DrawOp.primitive = primitivesOfTag k
      ∧ (drawBinaryElement k x y w h c name).length = opCount k
      ∧ (primitivesOfTag k).length = opCount k
      ∧ (opCount k = if k ≤ 6 then 1 else 3)
      ∧ (tag.val = 7 →
          renderElement fs el
            = some [DrawOp.setTextColor (hexTo565 el.color),
                    DrawOp.setTextSize (max 1 (truncDiv el.h 8)),
                    DrawOp.drawString el.name el.x el.y])
      ∧ (tag.val = 8 →
          renderElement fs el
            = some [DrawOp.setTextColor (hexTo565 el.color),
                    DrawOp.setTextSize (max 1 (truncDiv el.h 8)),
                    DrawOp.drawCentreString el.name (wrapInt (el.x + truncDiv el.w 2)) el.y 2])
      ∧ drawBinaryElement 7 x y w h c name
          = [DrawOp.setTextColor c, DrawOp.setTextSize (max 1 (truncDiv h 8)),
              DrawOp.drawString (some name) x y]
      ∧ drawBinaryElement 8 x y w h c name
          = [DrawOp.setTextColor c, DrawOp.setTextSize (max 1 (truncDiv h 8)),
              DrawOp.drawCentreString (some name) (x + truncDiv w 2) y 2] :=
  ⟨renderElement_primitives fs el t tag hty htag,
    renderElement_length fs el t tag hty htag,
    drawBinaryElement_primitives k h1 h8 x y w h c name,
    drawBinaryElement_length k h1 h8 x y w h c name,
    primitivesOfTag_length k h1 h8,
    rfl,
    renderElement_drawString fs el t tag hty htag,
    renderElement_drawCentreString fs el t tag hty htag,
    by simp only [drawBinaryElement, tdiv_eight],
    by simp only [drawBinaryElement, tdiv_eight, tdiv_two]⟩

theorem dispatch_op_count_witness :
    (typeTag (asc "drawString") = some 7 ∧ 1 ≤ 3 ∧ 3 ≤ 8 ∧ (7 : Byte).val = 7) ∧
      renderElement (fun _ => false)
          { type := some (asc "drawString"), name := some (asc "A"), x := 10, y := 20, w := 30,
            h := 16, color := some (asc "#FFF"), asset := none }
        = some [DrawOp.setTextColor 0xFFFF, DrawOp.setTextSize 2,
                DrawOp.drawString (some (asc "A")) 10 20] ∧
      (drawBinaryElement 3 1 2 3 4 5 []).map DrawOp.primitive = [Primitive.roundedRect] :=
  ⟨by decide,
   ((dispatch_op_count (fun _ => false)
      { type := some (asc "drawString"), name := some (asc "A"), x := 10, y := 20, w := 30,
        h := 16, color := some (asc "#FFF"), asset := none }
      (asc "drawString") 7 rfl (by decide) 3 (by decide) (by decide) 1 2 3 4 5 []).2.2.2.2.2.2.1
        (by decide)).trans (by decide),
   (dispatch_op_count (fun _ => false)
      { type := some (asc "drawString"), name := some (asc "A"), x := 10, y := 20, w := 30,
        h := 16, color := some (asc "#FFF"), asset := none }
      (asc "drawString") 7 rfl (by decide) 3 (by decide) (by decide) 1 2 3 4 5 []).2.2.1⟩

end ProjectRenderer
